import Mathlib

/-!
Shallow embedding of the Cloud Data Fusion backup/restore scripts
(`cdf_export.py` and `cdf_state.py`).  JSON documents fetched from the
service are modelled by the inductive `Json`; the local staging directory
and archive contents are modelled as finite path-to-document maps (`Fs`);
each orchestrator function is translated into a pure Lean function over an
environment record that supplies the results of the external HTTP and
object-storage calls, and returns the ordered trace of observable events
(file writes, renames, uploads, API write calls) together with the error,
if any, that the Python code would let escape.
-/

namespace Cdf

/-- JSON documents as exchanged with the service and stored in staged
files.  Only the shapes the scripts actually produce or inspect are
needed: null (Python `None` serialises to `null`), strings, arrays and
objects (association lists in key order). -/
inductive Json where
  | null : Json
  | str : String → Json
  | arr : List Json → Json
  | obj : List (String × Json) → Json

/-- Dictionary lookup: `Json.get j k` is `some v` when `j` is an object
whose first binding of key `k` is `v`, and `none` otherwise (a Python
`d.get(k)` miss, or a `KeyError`/`TypeError` site when the caller
subscripts). -/
def Json.get : Json → String → Option Json
  | .obj fields, k => (fields.find? (fun e => e.1 = k)).map (·.2)
  | _, _ => none

/-- Replacement of one key in an object, as done by
`response["configuration"] = configuration_dict`: every binding of the key
is replaced in place (on a non-object the Python code would have failed
earlier, so that case is left unchanged). -/
def Json.setKey : Json → String → Json → Json
  | .obj fields, k, v => .obj (fields.map (fun e => if e.1 = k then (k, v) else e))
  | j, _, _ => j

mutual

/-- Python `str()` as used when a JSON value is interpolated into a URL
f-string: strings render as themselves and `None` as the text None; for
the remaining shapes only totality matters here, so a simple rendering is
used. -/
def Json.pyStr : Json → String
  | .null => "None"
  | .str s => s
  | .arr xs => Json.pyStrList xs
  | .obj fields => Json.pyStrFields fields

def Json.pyStrList : List Json → String
  | [] => ""
  | x :: xs => Json.pyStr x ++ Json.pyStrList xs

def Json.pyStrFields : List (String × Json) → String
  | [] => ""
  | e :: xs => e.1 ++ Json.pyStr e.2 ++ Json.pyStrFields xs

end

/-- Serialisation of a Python `None`-or-dict result by `json.dump`:
`None` serialises as the JSON value null. -/
def optJson : Option Json → Json
  | some j => j
  | none => .null

/-- A staged directory tree or archive: a list of (relative path, JSON
document) pairs in creation order.  Paths are lists of segments; the
backup layout only uses `[file]` at the root and `[namespace, file]`
inside a namespace directory.  Zip archives record exactly these files
(`zipf.write` walks files only), so an empty directory leaves no trace in
an archive. -/
abbrev Fs := List (List String × Json)

/-- Look up the document stored at a path. -/
def fsGet (t : Fs) (p : List String) : Option Json :=
  (t.find? (fun e => e.1 = p)).map (·.2)

/-- Write a document at a path: replace in place when the path exists,
otherwise append (matching creation then overwrite semantics of
`open(path, "w")`). -/
def fsInsert : Fs → List String → Json → Fs
  | [], p, c => [(p, c)]
  | e :: es, p, c => if e.1 = p then (p, c) :: es else e :: fsInsert es p c

/-- Remove the entry at a path. -/
def fsErase (t : Fs) (p : List String) : Fs :=
  t.filter (fun e => decide (e.1 ≠ p))

/-- The `os.rename` of a staged file: the old entry is removed and the
new path receives its content (overwriting any existing entry, as POSIX
rename does). -/
def fsRename (t : Fs) (old new : List String) : Fs :=
  match fsGet t old with
  | some c => fsInsert (fsErase t old) new c
  | none => t

/-- The file name an entry contributes to the listing of directory `d`:
only entries directly below `d`. -/
def dirFileOf (d : String) (e : List String × Json) : Option String :=
  match e.1 with
  | [a, b] => if a = d then some b else none
  | _ => none

/-- Python `os.listdir` on a namespace directory, restricted to plain
files: the file names stored directly under the directory, in tree
order. -/
def listdir (t : Fs) (d : String) : List String :=
  t.filterMap (dirFileOf d)

/-- A directory exists in an extracted archive exactly when some archived
file lies under it. -/
def dirExists (t : Fs) (d : String) : Bool :=
  t.any (fun e => e.1.head? = some d)

/-- Python `str.startswith`, computed on the underlying character
lists. -/
def strStartsWith (s pre : String) : Bool :=
  pre.toList.isPrefixOf s.toList

/-- Python `str.endswith`, computed on the underlying character lists. -/
def strEndsWith (s suf : String) : Bool :=
  suf.toList.reverse.isPrefixOf s.toList.reverse

/-- Auxiliary splitter: accumulate the current chunk (reversed) while
scanning. -/
def splitSepAux (sep : Char) : List Char → List Char → List (List Char)
  | [], acc => [acc.reverse]
  | c :: rest, acc =>
    if c = sep then acc.reverse :: splitSepAux sep rest []
    else splitSepAux sep rest (c :: acc)

/-- Python `str.split(sep)` for a one-character separator: the chunks
between occurrences of the separator (never empty as a list, matching
`str.split`). -/
def splitSep (sep : Char) (s : String) : List String :=
  (splitSepAux sep s.toList []).map (fun cs => ⟨cs⟩)

/-- A namespace object returned by `GET /namespaces`: the code reads only
`namespace["name"]` (a string); every other field is carried opaquely.
`toJson` reconstitutes the document stored in `namespaces.json`. -/
structure NamespaceMeta where
  name : String
  rest : List (String × Json)

def NamespaceMeta.toJson (n : NamespaceMeta) : Json :=
  .obj (("name", .str n.name) :: n.rest)

/-- One entry of the draft listing returned by the studio `drafts`
endpoint: the code reads `pipeline.get("name")` and `pipeline.get("id")`. -/
structure DraftMeta where
  name : String
  id : String

/-- One connection document returned by the studio `connections`
endpoint: the code reads `connection.get("name")` and stores the whole
document.  `toJson` is the stored document. -/
structure Conn where
  name : String
  rest : List (String × Json)

def Conn.toJson (c : Conn) : Json :=
  .obj (("name", .str c.name) :: c.rest)

end Cdf

namespace CdfExport

open Cdf

/-- Environment of one `cdf_export.py` backup run: the results of every
external call the run makes.  `exportStatus` is the HTTP status of the
bulk `GET /export/apps`; `exportFiles` are the entries of the returned
archive as (namespace directory, file name, document); `namespaces` is
the `GET /namespaces` result (already empty on a soft transport failure,
matching `fetch_namespaces`); `pipelinesList`, `fetchPipeline` and
`connections` are the per-namespace studio reads (soft-failing to
empty/`none`); `parse` is `json.loads` on `configuration` strings
(`none` = `json.JSONDecodeError`); `uploadOk` tells whether the GCS
upload of (folder, object name) succeeds; `today` is the run date. -/
structure BackupEnv where
  today : String
  exportStatus : Nat
  exportFiles : List (String × String × Json)
  namespaces : List NamespaceMeta
  pipelinesList : String → List DraftMeta
  fetchPipeline : String → String → Option Json
  connections : String → List Conn
  parse : String → Option Json
  uploadOk : String → String → Bool

/-- Observable events of a backup run, in program order. -/
inductive BEvent where
  | exportRequested (status : Nat)
  | extracted (ns file : String) (content : Json)
  | warnedNoNamespaces
  | madeDir (ns : String)
  | wroteFile (path : List String) (content : Json)
  | renamed (old new : List String)
  | gcsUploaded (folder name : String) (archive : Fs)
  | gcsUploadFailed (folder name : String)
  | writeRaised (path : List String)
  | compressUploadFailed (name : String)

/-- Whether a backup event writes the staging-root `namespaces.json`. -/
def BEvent.isNsJsonWrite : BEvent → Bool
  | .wroteFile ["namespaces.json"] _ => true
  | _ => false

/-- Whether a backup event puts a resource file into a namespace
subdirectory: an extraction from the bulk export, a write of a file
below a directory, or a rename within one. -/
def BEvent.populatesNsDir : BEvent → Bool
  | .extracted _ _ _ => true
  | .wroteFile (_ :: _ :: _) _ => true
  | .renamed _ _ => true
  | _ => false

/-- Whether a backup event is a failed (logged and swallowed) upload. -/
def BEvent.isUploadFailed : BEvent → Bool
  | .gcsUploadFailed _ _ => true
  | _ => false

/-- Whether a backup event is a successful upload. -/
def BEvent.isUploaded : BEvent → Bool
  | .gcsUploaded _ _ _ => true
  | _ => false

/-- Whether a backup event writes or attempts to write a file directly
under the directory of the given namespace. -/
def BEvent.writesUnder (ns : String) : BEvent → Bool
  | .wroteFile (d :: _ :: _) _ => d = ns
  | .writeRaised (d :: _ :: _) => d = ns
  | _ => false

/-- Stem of a file name, as `os.path.splitext(file)[0]`: the part before
the last dot, except that a basename consisting only of leading dots
before that dot is not split. -/
def splitextStem (f : String) : String :=
  let cs := f.toList
  match (cs.reverse.findIdx? (fun c => c = '.')) with
  | none => f
  | some r =>
    let i := cs.length - 1 - r
    if (cs.take i).all (fun c => c = '.') then f else ⟨cs.take i⟩

/-- The body of the per-file formatting step of `format_deployed_apps`:
read the `configuration` field (defaulting to the empty string as in
`response.get("configuration", "")`), decode it with `json.loads`, and on
success substitute the decoded object.  `none` means the file is skipped:
either the decode failed (`json.JSONDecodeError`, inner `continue`) or
the field was not a string (`json.loads` raises `TypeError`, caught by
the outer per-file handler which logs and moves on). -/
def formatConfig (parse : String → Option Json) (content : Json) : Option Json :=
  match (content.get "configuration").getD (.str "") with
  | .str s =>
    match parse s with
    | some cfg => some (content.setKey "configuration" cfg)
    | none => none
  | _ => none

/-- Processing of one file of a namespace directory by
`format_deployed_apps`: on a successful decode the file is rewritten in
place with the formatted document and then renamed to
`app_<stem>.json`; otherwise the tree is left untouched. -/
def processFormatFile (parse : String → Option Json) (ns fname : String)
    (t : Fs) : List BEvent × Fs :=
  match formatConfig parse ((fsGet t [ns, fname]).getD .null) with
  | some newC =>
    ([.wroteFile [ns, fname] newC,
      .renamed [ns, fname] [ns, "app_" ++ splitextStem fname ++ ".json"]],
     fsRename (fsInsert t [ns, fname] newC) [ns, fname]
       [ns, "app_" ++ splitextStem fname ++ ".json"])
  | none => ([], t)

/-- Left-to-right processing of a directory listing snapshot by the
per-file loop of `format_deployed_apps`. -/
def processFormatFiles (parse : String → Option Json) (ns : String) :
    List String → Fs → List BEvent × Fs
  | [], t => ([], t)
  | f :: fs, t =>
    ((processFormatFile parse ns f t).1 ++
       (processFormatFiles parse ns fs (processFormatFile parse ns f t).2).1,
     (processFormatFiles parse ns fs (processFormatFile parse ns f t).2).2)

/-- Per-namespace step of `format_deployed_apps`: skip (with a logged
warning) when the namespace directory does not exist, otherwise take an
`os.listdir` snapshot and process each listed file. -/
def formatNamespaceDir (parse : String → Option Json) (ns : String)
    (t : Fs) : List BEvent × Fs :=
  if dirExists t ns then processFormatFiles parse ns (listdir t ns) t
  else ([], t)

/-- The `format_deployed_apps` loop over the namespace list. -/
def format_deployed_apps (parse : String → Option Json) :
    List NamespaceMeta → Fs → List BEvent × Fs
  | [], t => ([], t)
  | n :: ns, t =>
    ((formatNamespaceDir parse n.name t).1 ++
       (format_deployed_apps parse ns (formatNamespaceDir parse n.name t).2).1,
     (format_deployed_apps parse ns (formatNamespaceDir parse n.name t).2).2)

/-- The staging tree produced by extracting the bulk export archive
(`zip_ref.extractall`): later duplicate member names overwrite earlier
ones. -/
def exportFs (files : List (String × String × Json)) : Fs :=
  files.foldl (fun t e => fsInsert t [e.1, e.2.1] e.2.2) []

/-- Translation of `fetch_applications`: request the bulk export, raise
(wrapped) when the HTTP status is not exactly 200, otherwise save and
extract the returned archive into the staging directory. -/
def fetch_applications (env : BackupEnv) : List BEvent × Except String Fs :=
  if env.exportStatus = 200 then
    (.exportRequested env.exportStatus ::
       env.exportFiles.map (fun e => .extracted e.1 e.2.1 e.2.2),
     .ok (exportFs env.exportFiles))
  else
    ([.exportRequested env.exportStatus],
     .error ("Error exporting CDAP applications: Failed to export applications: "
       ++ toString env.exportStatus))

/-- Translation of `save_to_gcs`: attempt the upload and log on failure —
the exception is swallowed, so the caller never observes it. -/
def save_to_gcs (env : BackupEnv) (name : String) (archive : Fs)
    (folder : String) : BEvent :=
  if env.uploadOk folder name then .gcsUploaded folder name archive
  else .gcsUploadFailed folder name

/-- Per-namespace body of the backup loop: ensure the namespace staging
directory exists, write each fetched draft as `draft_<name>.json` (a
failed fetch yields the JSON value null), then write each connection as
`conn_<name>.json`.  Nothing in this body raises in the model, matching
the soft-failing reads, so the surrounding `except` never fires. -/
def backupNamespace (env : BackupEnv) (n : NamespaceMeta) (t : Fs) :
    List BEvent × Fs :=
  let mkdirEvents : List BEvent :=
    if dirExists t n.name then [] else [.madeDir n.name]
  let draftWrites : List (List String × Json) :=
    (env.pipelinesList n.name).map (fun d =>
      ([n.name, "draft_" ++ d.name ++ ".json"],
        optJson (env.fetchPipeline n.name d.id)))
  let connWrites : List (List String × Json) :=
    (env.connections n.name).map (fun c =>
      ([n.name, "conn_" ++ c.name ++ ".json"], c.toJson))
  let writes := draftWrites ++ connWrites
  (mkdirEvents ++ writes.map (fun w => .wroteFile w.1 w.2),
   writes.foldl (fun acc w => fsInsert acc w.1 w.2) t)

/-- The backup loop over the namespace list. -/
def backupNamespaces (env : BackupEnv) :
    List NamespaceMeta → Fs → List BEvent × Fs
  | [], t => ([], t)
  | n :: ns, t =>
    ((backupNamespace env n t).1 ++
       (backupNamespaces env ns (backupNamespace env n t).2).1,
     (backupNamespaces env ns (backupNamespace env n t).2).2)

/-- Translation of `backup_application_state` in `cdf_export.py`.  The
run: (1) requests and extracts the bulk application export (the only
step whose exception escapes the function); (2) fetches the namespace
list and stops with a warning when it is empty; (3) formats the
extracted deployed-app files; (4) writes `namespaces.json` at the
staging root; (5) runs the per-namespace draft/connection loop; (6)
compresses the staging tree (files only) and uploads it under the dated
name to the archive folder and under the fixed name `backup.zip` to the
latest folder, upload failures being logged and swallowed.  Returns the
event trace, the escaped error if any, and the final staging tree. -/
def backup_application_state (env : BackupEnv) :
    List BEvent × Option String × Fs :=
  let es := (fetch_applications env).1
  match (fetch_applications env).2 with
  | .error e => (es, some e, [])
  | .ok t0 =>
    if env.namespaces.isEmpty then
      (es ++ [.warnedNoNamespaces], none, t0)
    else
      let (fes, t1) := format_deployed_apps env.parse env.namespaces t0
      let nsDoc := Json.arr (env.namespaces.map NamespaceMeta.toJson)
      let t2 := fsInsert t1 ["namespaces.json"] nsDoc
      let (les, t3) := backupNamespaces env env.namespaces t2
      (es ++ fes ++ [.wroteFile ["namespaces.json"] nsDoc] ++ les ++
        [save_to_gcs env (env.today ++ "_backup.zip") t3 "cdf/archive",
         save_to_gcs env "backup.zip" t3 "cdf/latest"],
       none, t3)

/-- Projections of a backup run. -/
def backupTrace (env : BackupEnv) : List BEvent :=
  (backup_application_state env).1

def backupErr (env : BackupEnv) : Option String :=
  (backup_application_state env).2.1

def stagingTree (env : BackupEnv) : Fs :=
  (backup_application_state env).2.2

/-- Object-storage contents: a map from (folder, object name) to the
archive stored there. -/
abbrev GcsState := List ((String × String) × Fs)

def gcsGet (g : GcsState) (k : String × String) : Option Fs :=
  (g.find? (fun e => e.1 = k)).map (·.2)

def gcsSet : GcsState → String × String → Fs → GcsState
  | [], k, v => [(k, v)]
  | e :: es, k, v => if e.1 = k then (k, v) :: es else e :: gcsSet es k v

/-- Effect of one backup event on object storage: only successful
uploads change it. -/
def applyBEvent (g : GcsState) : BEvent → GcsState
  | .gcsUploaded folder name archive => gcsSet g (folder, name) archive
  | _ => g

/-- Object storage after replaying a backup run on an initial state. -/
def gcsAfterBackup (g : GcsState) (env : BackupEnv) : GcsState :=
  (backupTrace env).foldl applyBEvent g

/-- API write calls issued by a restore run, in program order.  Events
record issuance of the PUT, independent of whether the service accepts
it. -/
inductive REvent where
  | createNamespace (name : String) (payload : Json)
  | upsertApp (ns appName : String) (payload : Json)
  | upsertDraft (ns draftId : String) (payload : Json)
  | upsertConnection (ns connName : String) (payload : Json)

/-- Whether a restore event is a connection upsert. -/
def REvent.isUpsertConnection : REvent → Bool
  | .upsertConnection _ _ _ => true
  | _ => false

/-- Whether a restore event is a namespace-creation PUT for the given
name. -/
def REvent.createsNamespace (n : String) : REvent → Bool
  | .createNamespace m _ => m = n
  | _ => false

/-- Whether a restore event is a namespace-creation PUT. -/
def REvent.isCreate : REvent → Bool
  | .createNamespace _ _ => true
  | _ => false

/-- The namespace a restore event acts on. -/
def REvent.nsOf : REvent → String
  | .createNamespace n _ => n
  | .upsertApp n _ _ => n
  | .upsertDraft n _ _ => n
  | .upsertConnection n _ _ => n

/-- Environment of one restore run: the object-storage listings of the
archive (history) and latest folders, each blob carrying the files its
zip archive would extract to, and the success of each namespace-creation
PUT (per-item upsert failures are logged and change nothing observable,
so they need no environment entry). -/
structure RestoreEnv where
  archiveBlobs : List (String × Fs)
  latestBlobs : List (String × Fs)
  createNsOk : String → Bool

/-- Python truthiness of the optional `--restore_version` string:
`None` and the empty string are falsy. -/
def truthyStr : Option String → Bool
  | none => false
  | some v => decide (v ≠ "")

/-- Version encoded in a blob name, as
`blob.name.split("/")[-1].split("_")[0]`. -/
def versionOfBlob (name : String) : String :=
  ((splitSep (Char.ofNat 47) name).getLastD "" |> splitSep (Char.ofNat 95)).headD ""

/-- Translation of `download_and_unzip_from_gcs`: list the folder, keep
the `.zip` blobs, raise (wrapped) when there are none; with a truthy
version select the first blob whose encoded version matches, raising
(wrapped) when none matches; otherwise take the first zip blob.  The
selected archive is downloaded and extracted; its file set is
returned. -/
def download_and_unzip_from_gcs (blobs : List (String × Fs)) (folder : String)
    (version : Option String) : Except String Fs :=
  let zipFiles := blobs.filter (fun b => strEndsWith b.1 ".zip")
  match zipFiles with
  | [] => .error ("Failed to download and unzip file: No .zip files found in folder "
      ++ folder ++ ".")
  | zb :: _ =>
    if truthyStr version then
      match zipFiles.find? (fun b => versionOfBlob b.1 = version.getD "") with
      | some b => .ok b.2
      | none => .error ("Failed to download and unzip file: Specified version "
          ++ version.getD "" ++ " was not found in archive.")
    else .ok zb.2

/-- Classification of a namespace directory listing by the restore loop:
files starting with `conn`, then (elif) files starting with `draft`,
then everything else as deployed apps. -/
def connFilesOf (files : List String) : List String :=
  files.filter (fun f => strStartsWith f "conn")

def draftFilesOf (files : List String) : List String :=
  files.filter (fun f => !strStartsWith f "conn" && strStartsWith f "draft")

def appFilesOf (files : List String) : List String :=
  files.filter (fun f => !strStartsWith f "conn" && !strStartsWith f "draft")

/-- Restoration of one deployed-app file: read it, take
`app_pipeline.get("name")` (a missing key interpolates as None) and PUT
the document.  A non-object document makes `.get` raise, which the
per-item handler catches and logs, issuing no call; a rejected PUT is
also caught, so the event is recorded regardless. -/
def restoreAppFile (ns : String) (fs : Fs) (f : String) : List REvent :=
  match (fsGet fs [ns, f]).getD .null with
  | .obj fields =>
    [.upsertApp ns
      (match (Json.obj fields).get "name" with
       | some j => j.pyStr
       | none => "None")
      (.obj fields)]
  | _ => []

/-- Restoration of one draft file: read it and PUT it under
`pipeline["id"]`.  Both the success log line and the `except` handler
interpolate `pipeline["name"]`, so the per-item handler only really
protects documents that carry a usable name: an object with `id` and
`name` is PUT and the loop continues (whatever the PUT status); an
object with `id` but no `name` is PUT and then the log line raises out
of the whole run; an object with `name` but no `id` is skipped with a
logged error; a document with neither — in particular the JSON value
null staged for a failed fetch — issues no call and raises out of the
whole run. -/
def restoreDraftFile (ns : String) (fs : Fs) (f : String) :
    List REvent × Option String :=
  match (fsGet fs [ns, f]).getD .null with
  | .obj fields =>
    match (Json.obj fields).get "id", (Json.obj fields).get "name" with
    | some v, some _ => ([.upsertDraft ns v.pyStr (.obj fields)], none)
    | some v, none =>
      ([.upsertDraft ns v.pyStr (.obj fields)],
       some ("KeyError or TypeError reading pipeline name in " ++ f))
    | none, some _ => ([], none)
    | none, none => ([], some ("KeyError or TypeError reading pipeline name in " ++ f))
  | _ => ([], some ("KeyError or TypeError reading pipeline name in " ++ f))

/-- Restoration of one connection file: `connection["name"]` is read
outside the `try`, so a document that is not an object or lacks the key
raises out of the whole restore run; otherwise the PUT is issued (a
rejected PUT is caught and logged). -/
def restoreConnFile (ns : String) (fs : Fs) (f : String) :
    List REvent × Option String :=
  match ((fsGet fs [ns, f]).getD .null).get "name" with
  | some j => ([.upsertConnection ns j.pyStr ((fsGet fs [ns, f]).getD .null)], none)
  | none => ([], some ("KeyError or TypeError reading connection name in " ++ f))

/-- The connection loop of the restore code, with its unhandled name
error cutting the run short. -/
def runConnFiles (ns : String) (fs : Fs) : List String → List REvent × Option String
  | [] => ([], none)
  | f :: rest =>
    match (restoreConnFile ns fs f).2 with
    | some e => ((restoreConnFile ns fs f).1, some e)
    | none =>
      ((restoreConnFile ns fs f).1 ++ (runConnFiles ns fs rest).1,
       (runConnFiles ns fs rest).2)

/-- The draft loop of the restore code.  Faithful to the source
indentation, the whole connection loop is nested inside the body of the
draft loop, after the per-draft `try`: connections are replayed once per
draft file, and not at all when the namespace has no draft files.  An
unhandled error while replaying a draft (the log lines subscripting
`pipeline["name"]`) stops the run before that iteration reaches the
nested connection loop. -/
def runDraftFiles (ns : String) (fs : Fs) (connFiles : List String) :
    List String → List REvent × Option String
  | [] => ([], none)
  | f :: rest =>
    match (restoreDraftFile ns fs f).2 with
    | some e => ((restoreDraftFile ns fs f).1, some e)
    | none =>
      match (runConnFiles ns fs connFiles).2 with
      | some e =>
        ((restoreDraftFile ns fs f).1 ++ (runConnFiles ns fs connFiles).1, some e)
      | none =>
        ((restoreDraftFile ns fs f).1 ++ (runConnFiles ns fs connFiles).1 ++
           (runDraftFiles ns fs connFiles rest).1,
         (runDraftFiles ns fs connFiles rest).2)

/-- Per-namespace body of the restore loop: read `namespace["name"]`
(an unhandled error when missing or not usable as a path segment), list
the namespace directory (`os.listdir` raises `FileNotFoundError` when
the archive held no file under it, unhandled), classify the files, then
— unless the namespace is `default` — PUT the namespace document,
skipping the rest of this namespace when that PUT is rejected; finally
replay deployed apps, then drafts with the nested connection loop. -/
def restoreNamespace (env : RestoreEnv) (fs : Fs) (nsJ : Json) :
    List REvent × Option String :=
  match nsJ.get "name" with
  | some (.str name) =>
    if dirExists fs name then
      let files := listdir fs name
      let body : List REvent × Option String :=
        ((appFilesOf files).flatMap (restoreAppFile name fs) ++
           (runDraftFiles name fs (connFilesOf files) (draftFilesOf files)).1,
         (runDraftFiles name fs (connFilesOf files) (draftFilesOf files)).2)
      if name = "default" then body
      else if env.createNsOk name then
        (.createNamespace name nsJ :: body.1, body.2)
      else ([.createNamespace name nsJ], none)
    else ([], some ("FileNotFoundError: No such file or directory: " ++ name))
  | _ => ([], some "KeyError or TypeError reading namespace name")

/-- The restore loop over the namespace list read from
`namespaces.json`; an unhandled error in one namespace stops the whole
loop. -/
def restoreNamespaces (env : RestoreEnv) (fs : Fs) :
    List Json → List REvent × Option String
  | [] => ([], none)
  | nsJ :: rest =>
    match (restoreNamespace env fs nsJ).2 with
    | some e => ((restoreNamespace env fs nsJ).1, some e)
    | none =>
      ((restoreNamespace env fs nsJ).1 ++ (restoreNamespaces env fs rest).1,
       (restoreNamespaces env fs rest).2)

/-- Translation of `restore_application_state` in `cdf_export.py`:
resolve the archive (the history folder with the version when the
`--restore_version` argument is truthy, else the latest folder), extract
it, read `namespaces.json` (raising when absent, warning and stopping on
a falsy content), and run the per-namespace loop. -/
def restore_application_state (env : RestoreEnv) (restoreVersion : Option String) :
    List REvent × Option String :=
  let download :=
    if truthyStr restoreVersion then
      download_and_unzip_from_gcs env.archiveBlobs "cdf/archive" restoreVersion
    else
      download_and_unzip_from_gcs env.latestBlobs "cdf/latest" none
  match download with
  | .error e => ([], some e)
  | .ok fs =>
    match fsGet fs ["namespaces.json"] with
    | none => ([], some "Error reading JSON file at namespaces.json")
    | some (.arr []) => ([], none)
    | some .null => ([], none)
    | some (.arr l) => restoreNamespaces env fs l
    | some _ => ([], some "TypeError iterating namespaces")

end CdfExport

namespace CdfState

open Cdf CdfExport

/-- One entry of the `GET /namespaces/{ns}/apps` listing used by
`cdf_state.py`; the code reads only `pipeline.get("name")`. -/
structure AppMeta where
  name : String

/-- Environment of one `cdf_state.py` backup run. -/
structure SBackupEnv where
  today : String
  namespaces : List NamespaceMeta
  appsList : String → List AppMeta
  fetchPipeline : String → String → Option Json
  connections : String → List Conn

/-- Per-namespace body of the `cdf_state.py` backup loop.  Namespaces
named `default` are skipped outright by the `if namespace_name !=
"default"` guard.  For the others, `save_to_file` opens
`BACKUP_DIRECTORY/<ns>/<file>.json` for writing, but no code ever
creates the per-namespace directory, so the first attempted write of the
namespace raises `FileNotFoundError`, which the per-namespace handler
catches — abandoning the rest of that namespace.  A namespace with
nothing to fetch attempts no write. -/
def sBackupNamespace (env : SBackupEnv) (n : NamespaceMeta) : List BEvent :=
  if n.name = "default" then []
  else
    match env.appsList n.name with
    | p :: _ => [.writeRaised [n.name, p.name ++ ".json"]]
    | [] =>
      match env.connections n.name with
      | c :: _ => [.writeRaised [n.name, c.name ++ ".json"]]
      | [] => []

/-- Translation of `backup_application_state` in `cdf_state.py`: stop
with a warning on an empty namespace list; otherwise write
`namespaces.json`, run the per-namespace loop, then compress and upload.
The upload always raises — `bucket.blob(zip_filename, sufix=...)`
passes a keyword argument the storage client does not accept — and the
surrounding handler logs and swallows it, so no archive ever reaches
object storage and the run still returns normally. -/
def backup_application_state (env : SBackupEnv) : List BEvent × Option String :=
  if env.namespaces.isEmpty then ([.warnedNoNamespaces], none)
  else
    (.wroteFile ["namespaces.json"] (Json.arr (env.namespaces.map NamespaceMeta.toJson)) ::
       env.namespaces.flatMap (sBackupNamespace env) ++
       [.compressUploadFailed (env.today ++ "_backup.zip")],
     none)

/-- Environment of one `cdf_state.py` restore run: the
`cdf/namespaces.json` blob content (`load_from_gcs` soft-fails to an
empty object), the per-namespace blob listings of the per-resource
layout, and the success of each namespace-creation PUT. -/
structure SRestoreEnv where
  nsBlob : Json
  pipelineBlobs : String → List Json
  connectionBlobs : String → List Json
  createNsOk : String → Bool

/-- The pipeline-restore loop of `cdf_state.py`: each document is PUT
under `pipeline["name"]`.  A document without a usable name raises
inside the `try`, and the `except` handler itself interpolates
`pipeline["name"]`, which raises again — out of the whole run, before
the connection loop is reached. -/
def sPipeLoop (ns : String) : List Json → List REvent × Option String
  | [] => ([], none)
  | d :: rest =>
    match d.get "name" with
    | some v =>
      (.upsertDraft ns v.pyStr d :: (sPipeLoop ns rest).1, (sPipeLoop ns rest).2)
    | none => ([], some "KeyError or TypeError reading pipeline name")

/-- The connection-restore loop of `cdf_state.py`: `connection["name"]`
is read under a handler that catches only HTTP errors, so a document
without a usable name raises out of the whole run. -/
def sConnLoop (ns : String) : List Json → List REvent × Option String
  | [] => ([], none)
  | c :: rest =>
    match c.get "name" with
    | some v =>
      (.upsertConnection ns v.pyStr c :: (sConnLoop ns rest).1, (sConnLoop ns rest).2)
    | none => ([], some "KeyError reading connection name")

/-- Per-namespace body of the `cdf_state.py` restore loop: everything —
namespace creation, pipelines, connections — sits under the `if name !=
"default"` guard, so the `default` namespace is skipped entirely.  A
rejected namespace-creation PUT skips the namespace resources. -/
def sRestoreNamespace (env : SRestoreEnv) (nsJ : Json) :
    List REvent × Option String :=
  match nsJ.get "name" with
  | some nv =>
    match nv with
    | .str "default" => ([], none)
    | _ =>
      let name := nv.pyStr
      if env.createNsOk name then
        match (sPipeLoop name (env.pipelineBlobs name)).2 with
        | some e =>
          (.createNamespace name nsJ :: (sPipeLoop name (env.pipelineBlobs name)).1,
           some e)
        | none =>
          (.createNamespace name nsJ ::
             ((sPipeLoop name (env.pipelineBlobs name)).1 ++
               (sConnLoop name (env.connectionBlobs name)).1),
           (sConnLoop name (env.connectionBlobs name)).2)
      else ([.createNamespace name nsJ], none)
  | none => ([], some "KeyError or TypeError reading namespace name")

/-- The restore loop of `cdf_state.py` over the namespace documents. -/
def sRestoreNamespaces (env : SRestoreEnv) : List Json → List REvent × Option String
  | [] => ([], none)
  | nsJ :: rest =>
    match (sRestoreNamespace env nsJ).2 with
    | some e => ((sRestoreNamespace env nsJ).1, some e)
    | none =>
      ((sRestoreNamespace env nsJ).1 ++ (sRestoreNamespaces env rest).1,
       (sRestoreNamespaces env rest).2)

/-- Translation of `restore_application_state` in `cdf_state.py`: load
the namespace list blob, warn and stop when it is falsy, then run the
per-namespace loop. -/
def restore_application_state (env : SRestoreEnv) : List REvent × Option String :=
  match env.nsBlob with
  | .arr [] => ([], none)
  | .obj [] => ([], none)
  | .null => ([], none)
  | .arr l => sRestoreNamespaces env l
  | _ => ([], some "TypeError iterating namespaces")

end CdfState

namespace CdfExport

/-- Whether a backup event records the bulk-export request. -/
def BEvent.isExportRequested : BEvent → Bool
  | .exportRequested _ => true
  | _ => false

/-- Whether a backup event records an extraction from the bulk export. -/
def BEvent.isExtracted : BEvent → Bool
  | .extracted _ _ _ => true
  | _ => false

/-- Whether an `Except` result carries an error. -/
def erred {α : Type} : Except String α → Bool
  | .error _ => true
  | .ok _ => false

/-- HTTP success range, as the spec words it: any 2xx status. -/
def is2xx (s : Nat) : Bool := decide (200 ≤ s) && decide (s < 300)

end CdfExport

namespace Claims

open Cdf CdfExport CdfState

/-- Backup-time service state for the round-trip check of C1: one
namespace `ns1` (not `default`) holding one connection `c1` and no
pipeline drafts; nothing deployed; all uploads succeed. -/
def c1BackupEnv : BackupEnv :=
  ⟨"2024-12-06", 200, [], [⟨"ns1", []⟩], fun _ => [], fun _ _ => none,
   fun n => if n = "ns1" then [⟨"c1", []⟩] else [], fun _ => none, fun _ _ => true⟩

/-- Restore environment whose latest slot holds exactly the archive the
C1 backup run produced; every namespace-creation PUT succeeds. -/
def c1RestoreEnv : RestoreEnv :=
  ⟨[], [("cdf/latest/backup.zip", stagingTree c1BackupEnv)], fun _ => true⟩

/-- Backup environment for C3 and C4 instances: one deployed app in the
bulk export for namespace `ns1`, whose configuration string decodes. -/
def c3BackupEnv : BackupEnv :=
  ⟨"2024-12-06", 200,
   [("ns1", "a.json", .obj [("name", .str "a"), ("configuration", .str "cfg")])],
   [⟨"ns1", []⟩], fun _ => [], fun _ _ => none, fun _ => [],
   fun s => if s = "cfg" then some (.obj []) else none, fun _ _ => true⟩

/-- Backup environment with an empty namespace list but a non-empty bulk
export, for C4. -/
def c4BackupEnv : BackupEnv :=
  ⟨"2024-12-06", 200, [("ns1", "a.json", .obj [])], [], fun _ => [], fun _ _ => none,
   fun _ => [], fun _ => none, fun _ _ => true⟩

/-- Backup environment for C5: the upload to the history (archive)
folder succeeds but the upload to the latest slot fails. -/
def c5BackupEnv : BackupEnv :=
  ⟨"2024-12-06", 200, [], [⟨"ns1", []⟩], fun _ => [], fun _ _ => none,
   fun n => if n = "ns1" then [⟨"c1", []⟩] else [], fun _ => none,
   fun f _ => f = "cdf/archive"⟩

/-- Initial object storage for C5: the latest slot still holds the
(empty) archive of some earlier run. -/
def c5Gcs0 : GcsState := [(("cdf/latest", "backup.zip"), [])]

/-- Backup environment for the C5 witness: identical state but with both
uploads succeeding. -/
def c5OkBackupEnv : BackupEnv :=
  ⟨"2024-12-06", 200, [], [⟨"ns1", []⟩], fun _ => [], fun _ _ => none,
   fun n => if n = "ns1" then [⟨"c1", []⟩] else [], fun _ => none, fun _ _ => true⟩

/-- Restore environment for C6: the history folder holds one archive
dated 2024-12-05. -/
def c6RestoreEnv : RestoreEnv :=
  ⟨[("cdf/archive/2024-12-05_backup.zip", [(["ns1", "x.json"], .obj [])])], [],
   fun _ => true⟩

/-- Backup environment for C7: the bulk export answers 204, a success
status that is not 200. -/
def c7BackupEnv : BackupEnv :=
  ⟨"2024-12-06", 204, [], [], fun _ => [], fun _ _ => none,
   fun _ => [], fun _ => none, fun _ _ => true⟩

/-- Backup environment for the C9 witness: one namespace with one listed
draft whose individual fetch soft-fails. -/
def c9BackupEnv : BackupEnv :=
  ⟨"2024-12-06", 200, [], [⟨"ns1", []⟩],
   fun n => if n = "ns1" then [⟨"p1", "d1"⟩] else [], fun _ _ => none,
   fun _ => [], fun _ => none, fun _ _ => true⟩

/-- Backup environment for the C10 witness: three namespaces, of which
`ns2` and `ns3` own no draft, no connection and no deployed app, so the
archive records no file under them (compression only records files). -/
def c10BackupEnv : BackupEnv :=
  ⟨"2024-12-06", 200, [], [⟨"ns1", []⟩, ⟨"ns2", []⟩, ⟨"ns3", []⟩],
   fun _ => [], fun _ _ => none,
   fun n => if n = "ns1" then [⟨"c1", []⟩] else [], fun _ => none, fun _ _ => true⟩

/-- Extracted archive for the C10 witness: exactly what the C10 backup
run staged — `namespaces.json` listing three namespaces, and a single
file under `ns1` only. -/
def c10Fs : Fs := stagingTree c10BackupEnv

/-- Restore environment for the C10 witness. -/
def c10RestoreEnv : RestoreEnv := ⟨[], [("cdf/latest/backup.zip", c10Fs)], fun _ => true⟩

/-- Backup environment for the C2 witness (`cdf_export.py` side): the
`default` namespace owns one draft and one connection. -/
def c2ExportBackupEnv : BackupEnv :=
  ⟨"2024-12-06", 200, [], [⟨"default", []⟩],
   fun n => if n = "default" then [⟨"p1", "d1"⟩] else [],
   fun _ d => some (.obj [("id", .str d), ("name", .str "p1")]),
   fun n => if n = "default" then [⟨"c1", []⟩] else [], fun _ => none, fun _ _ => true⟩

/-- Extracted archive for the C2 witness: the `default` namespace holds
one deployed app, one draft and one connection file. -/
def c2DefaultFs : Fs :=
  [(["namespaces.json"], .arr [.obj [("name", .str "default")]]),
   (["default", "app_a.json"], .obj [("name", .str "a")]),
   (["default", "draft_p1.json"], .obj [("id", .str "d1"), ("name", .str "p1")]),
   (["default", "conn_c1.json"], .obj [("name", .str "c1")])]

/-- Restore environment for the C2 witness (`cdf_export.py` side). -/
def c2ExportRestoreEnv : RestoreEnv :=
  ⟨[], [("cdf/latest/backup.zip", c2DefaultFs)], fun _ => true⟩

/-- Backup environment for the C2 counterexample (`cdf_state.py` side):
`default` owns one pipeline and one connection, which the guard skips. -/
def c2StateBackupEnv : CdfState.SBackupEnv :=
  ⟨"2024-12-06", [⟨"default", []⟩],
   fun n => if n = "default" then [⟨"p1"⟩] else [],
   fun _ _ => some (.obj []),
   fun n => if n = "default" then [⟨"c1", []⟩] else []⟩

/-- Backup environment for the C8 witness: the bulk export holds two
deployed-app files in `ns1`; the configuration of `good.json` decodes
and that of `bad.json` does not. -/
def c8BackupEnv : BackupEnv :=
  ⟨"2024-12-06", 200,
   [("ns1", "good.json", .obj [("name", .str "g"), ("configuration", .str "ok")]),
    ("ns1", "bad.json", .obj [("name", .str "b"), ("configuration", .str "broken")])],
   [⟨"ns1", []⟩], fun _ => [], fun _ _ => none, fun _ => [],
   fun s => if s = "ok" then some (.obj [("stages", .arr [])]) else none,
   fun _ _ => true⟩

/-- Restore environment for the C2 witness (`cdf_state.py` side):
`default` has stored pipeline and connection blobs. -/
def c2StateRestoreEnv : CdfState.SRestoreEnv :=
  ⟨.arr [.obj [("name", .str "default")]],
   fun n => if n = "default" then [.obj [("name", .str "p1")]] else [],
   fun n => if n = "default" then [.obj [("name", .str "c1")]] else [],
   fun _ => true⟩

end Claims

namespace Claims

open Cdf CdfExport

/-- Helper: the draft file of every listed draft of a namespace is
written by the per-namespace backup body, whatever tree it starts
from. -/
theorem mem_trace_backupNamespace_draft (env : BackupEnv) (n : NamespaceMeta)
    (d : DraftMeta) (hd : d ∈ env.pipelinesList n.name) (t : Fs) :
    BEvent.wroteFile [n.name, "draft_" ++ d.name ++ ".json"]
      (optJson (env.fetchPipeline n.name d.id)) ∈ (backupNamespace env n t).1 := by
  simp only [backupNamespace]
  refine List.mem_append_right _ ?_
  refine List.mem_map.mpr ⟨([n.name, "draft_" ++ d.name ++ ".json"],
    optJson (env.fetchPipeline n.name d.id)), ?_, rfl⟩
  exact List.mem_append_left _ (List.mem_map_of_mem _ hd)

/-- Helper: the connection file of every listed connection of a
namespace is written by the per-namespace backup body. -/
theorem mem_trace_backupNamespace_conn (env : BackupEnv) (n : NamespaceMeta)
    (c : Conn) (hc : c ∈ env.connections n.name) (t : Fs) :
    BEvent.wroteFile [n.name, "conn_" ++ c.name ++ ".json"] c.toJson
      ∈ (backupNamespace env n t).1 := by
  simp only [backupNamespace]
  refine List.mem_append_right _ ?_
  refine List.mem_map.mpr ⟨([n.name, "conn_" ++ c.name ++ ".json"], c.toJson), ?_, rfl⟩
  exact List.mem_append_right _ (List.mem_map_of_mem _ hc)

/-- Helper: an event emitted by the body of one namespace of the backup
loop, whatever the starting tree, is in the loop trace. -/
theorem mem_trace_backupNamespaces (env : BackupEnv) {l : List NamespaceMeta}
    {n : NamespaceMeta} (hn : n ∈ l) {ev : BEvent}
    (h : ∀ t : Fs, ev ∈ (backupNamespace env n t).1) :
    ∀ t : Fs, ev ∈ (backupNamespaces env l t).1 := by
  induction l with
  | nil => cases hn
  | cons x xs ih =>
    intro t
    simp only [backupNamespaces]
    rcases List.mem_cons.mp hn with h1 | h2
    · subst h1; exact List.mem_append_left _ (h t)
    · exact List.mem_append_right _ (ih h2 _)

/-- Helper: the backup run of `cdf_export.py`, when the bulk export
answers 200 and the namespace list is non-empty, decomposes into the
export phase, the formatting phase, the `namespaces.json` write, the
per-namespace fetch loop, and the two uploads, in that order. -/
theorem backup_trace_decomposition (env : BackupEnv)
    (hs : env.exportStatus = 200) (hne : env.namespaces ≠ []) :
    backup_application_state env =
      (BEvent.exportRequested 200 ::
         (env.exportFiles.map (fun e => .extracted e.1 e.2.1 e.2.2) ++
          ((format_deployed_apps env.parse env.namespaces (exportFs env.exportFiles)).1 ++
           (BEvent.wroteFile ["namespaces.json"]
              (Json.arr (env.namespaces.map NamespaceMeta.toJson)) ::
            ((backupNamespaces env env.namespaces
                (fsInsert (format_deployed_apps env.parse env.namespaces
                    (exportFs env.exportFiles)).2 ["namespaces.json"]
                  (Json.arr (env.namespaces.map NamespaceMeta.toJson)))).1 ++
             [save_to_gcs env (env.today ++ "_backup.zip") (stagingTree env) "cdf/archive",
              save_to_gcs env "backup.zip" (stagingTree env) "cdf/latest"])))),
       none, stagingTree env) := by
  have hemp : env.namespaces.isEmpty = false := by
    cases h : env.namespaces with
    | nil => exact absurd h hne
    | cons a l => rfl
  unfold stagingTree
  unfold backup_application_state fetch_applications
  simp [hs, hemp]

/-- C1: the claimed round trip fails on the code.  Backing up a single
namespace `ns1` holding one connection `c1` and no drafts produces an
archive that does contain `ns1/conn_c1.json`; restoring that archive
into an empty target completes without error and creates `ns1`, but
issues no connection upsert at all, because the connection-restore loop
is nested inside the per-draft loop and `ns1` has no draft files. -/
theorem c1_zero_draft_namespace_drops_connections :
    (stagingTree c1BackupEnv).any (fun e => e.1 = ["ns1", "conn_c1.json"]) = true ∧
    (restore_application_state c1RestoreEnv none).2 = none ∧
    ((restore_application_state c1RestoreEnv none).1.any (REvent.createsNamespace "ns1")) = true ∧
    ((restore_application_state c1RestoreEnv none).1.any REvent.isUpsertConnection) = false :=
  ⟨rfl, rfl, rfl, rfl⟩

/-- C7 (amended): the bulk application export raises exactly when the
HTTP status differs from 200 — not when it is outside the 2xx range. -/
theorem c7_bulk_export_raises_iff_status_not_200 (env : BackupEnv) :
    erred (fetch_applications env).2 = true ↔ env.exportStatus ≠ 200 := by
  by_cases h : env.exportStatus = 200 <;> simp [fetch_applications, erred, h]

/-- C7 counterexample: 204 is a 2xx success status, yet the bulk export
raises on it, refuting the claim that no 2xx response raises. -/
theorem c7_counterexample_204_raises :
    is2xx 204 = true ∧ erred (fetch_applications c7BackupEnv).2 = true :=
  ⟨rfl, rfl⟩

/-- C9: when the individual fetch of a listed draft soft-fails, the
backup still writes `draft_<name>.json` for it, containing the JSON
value null. -/
theorem c9_failed_draft_fetch_writes_null (env : BackupEnv) (n : NamespaceMeta)
    (d : DraftMeta) (hn : n ∈ env.namespaces) (hd : d ∈ env.pipelinesList n.name)
    (hf : env.fetchPipeline n.name d.id = none) (hs : env.exportStatus = 200) :
    BEvent.wroteFile [n.name, "draft_" ++ d.name ++ ".json"] Json.null ∈ backupTrace env := by
  have hne : env.namespaces ≠ [] := by
    intro h; rw [h] at hn; cases hn
  have hdec := backup_trace_decomposition env hs hne
  have hmem := mem_trace_backupNamespaces env hn
    (fun t => mem_trace_backupNamespace_draft env n d hd t)
  unfold backupTrace
  rw [hdec]
  refine List.mem_cons_of_mem _ ?_
  refine List.mem_append_right _ ?_
  refine List.mem_append_right _ ?_
  refine List.mem_cons_of_mem _ ?_
  refine List.mem_append_left _ ?_
  have h2 := hmem (fsInsert (format_deployed_apps env.parse env.namespaces
    (exportFs env.exportFiles)).2 ["namespaces.json"]
    (Json.arr (env.namespaces.map NamespaceMeta.toJson)))
  simpa [hf, optJson] using h2

/-- C9 witness: a concrete backup with one listed draft whose fetch
fails writes the null draft file. -/
theorem c9_witness :
    (⟨"ns1", []⟩ : NamespaceMeta) ∈ c9BackupEnv.namespaces ∧
    (⟨"p1", "d1"⟩ : DraftMeta) ∈ c9BackupEnv.pipelinesList "ns1" ∧
    c9BackupEnv.fetchPipeline "ns1" "d1" = none ∧
    c9BackupEnv.exportStatus = 200 ∧
    BEvent.wroteFile ["ns1", "draft_p1.json"] Json.null ∈ backupTrace c9BackupEnv :=
  ⟨by simp [c9BackupEnv], by simp [c9BackupEnv], rfl, rfl,
   c9_failed_draft_fetch_writes_null c9BackupEnv ⟨"ns1", []⟩ ⟨"p1", "d1"⟩
     (by simp [c9BackupEnv]) (by simp [c9BackupEnv]) rfl rfl⟩

/-- C4 (amended): the bulk export is requested and unpacked first; only
then is the namespace list fetched, and when it is empty the run stops
with a warning, producing no archive and no upload. -/
theorem c4_empty_namespace_list_aborts_after_export (env : BackupEnv)
    (hs : env.exportStatus = 200) (hne : env.namespaces = []) :
    backup_application_state env =
      (BEvent.exportRequested 200 ::
        (env.exportFiles.map (fun e => .extracted e.1 e.2.1 e.2.2) ++ [.warnedNoNamespaces]),
       none, exportFs env.exportFiles) ∧
    (backupTrace env).any BEvent.isUploaded = false := by
  have h1 : backup_application_state env =
      (BEvent.exportRequested 200 ::
        (env.exportFiles.map (fun e => .extracted e.1 e.2.1 e.2.2) ++ [.warnedNoNamespaces]),
       none, exportFs env.exportFiles) := by
    unfold backup_application_state fetch_applications
    simp [hs, hne]
  refine ⟨h1, ?_⟩
  unfold backupTrace
  rw [h1]
  rw [List.any_eq_false]
  intro e he
  rcases List.mem_cons.mp he with rfl | he2
  · simp [BEvent.isUploaded]
  rcases List.mem_append.mp he2 with h3 | h4
  · rcases List.mem_map.mp h3 with ⟨x, hx, rfl⟩
    simp [BEvent.isUploaded]
  · rcases List.mem_singleton.mp h4 with rfl
    simp [BEvent.isUploaded]

/-- C4 witness: the amended behaviour at a concrete environment with an
empty namespace list and one exported file. -/
theorem c4_witness :
    c4BackupEnv.exportStatus = 200 ∧ c4BackupEnv.namespaces = [] ∧
    (backup_application_state c4BackupEnv =
      (BEvent.exportRequested 200 ::
        (c4BackupEnv.exportFiles.map (fun e => .extracted e.1 e.2.1 e.2.2) ++
          [.warnedNoNamespaces]),
       none, exportFs c4BackupEnv.exportFiles) ∧
     (backupTrace c4BackupEnv).any BEvent.isUploaded = false) :=
  ⟨rfl, rfl, c4_empty_namespace_list_aborts_after_export c4BackupEnv rfl rfl⟩

/-- C4 counterexample: with an empty namespace list the run still
requests and unpacks the bulk export before stopping, refuting the
claim that the abort happens before the export is requested. -/
theorem c4_counterexample_export_requested_despite_empty_list :
    c4BackupEnv.namespaces = [] ∧
    (backupTrace c4BackupEnv).any BEvent.isExportRequested = true ∧
    (backupTrace c4BackupEnv).any BEvent.isExtracted = true :=
  ⟨rfl, rfl, rfl⟩

/-- C6: asking to restore a version that matches no archived blob stops
the run before any API write: the call trace is empty and the
version-not-found error escapes (when the history folder has at least
one zip archive, with exactly the version-not-found message). -/
theorem c6_unknown_version_no_writes (env : RestoreEnv) (v : String) (hv : v ≠ "")
    (hnf : ∀ b ∈ env.archiveBlobs, strEndsWith b.1 ".zip" = true → versionOfBlob b.1 ≠ v) :
    (restore_application_state env (some v)).1 = [] ∧
    (restore_application_state env (some v)).2 ≠ none ∧
    (env.archiveBlobs.filter (fun b => strEndsWith b.1 ".zip") ≠ [] →
      (restore_application_state env (some v)).2 =
        some ("Failed to download and unzip file: Specified version " ++ v ++
          " was not found in archive.")) := by
  have htr : truthyStr (some v) = true := by simp [truthyStr, hv]
  have hfind : (env.archiveBlobs.filter (fun b => strEndsWith b.1 ".zip")).find?
      (fun b => decide (versionOfBlob b.1 = v)) = none := by
    apply List.find?_eq_none.mpr
    intro b hb
    have h0 := List.mem_filter.mp hb
    have h1 := hnf b h0.1 h0.2
    simp [h1]
  cases hfz : env.archiveBlobs.filter (fun b => strEndsWith b.1 ".zip") with
  | nil =>
    refine ⟨?_, ?_, ?_⟩ <;>
      simp [restore_application_state, download_and_unzip_from_gcs, htr, hfz]
  | cons zb rest =>
    rw [hfz] at hfind
    refine ⟨?_, ?_, ?_⟩ <;>
      simp [restore_application_state, download_and_unzip_from_gcs, htr, hfz, hfind]

/-- Helper: looking up the key just stored in object storage yields the
stored archive. -/
theorem gcsGet_gcsSet_self (g : GcsState) (k : String × String) (v : Fs) :
    gcsGet (gcsSet g k v) k = some v := by
  induction g with
  | nil => simp [gcsSet, gcsGet]
  | cons e es ih =>
    by_cases h : e.1 = k
    · simp [gcsSet, h, gcsGet]
    · simp only [gcsSet, if_neg h]
      unfold gcsGet at ih ⊢
      rw [List.find?_cons_of_neg]
      · exact ih
      · simp [h]

/-- Helper: storing under one key leaves lookups of a different key
unchanged. -/
theorem gcsGet_gcsSet_ne (g : GcsState) (k k2 : String × String) (v : Fs)
    (h : k2 ≠ k) : gcsGet (gcsSet g k v) k2 = gcsGet g k2 := by
  have h2k : ¬k = k2 := fun hx => h hx.symm
  induction g with
  | nil => simp [gcsSet, gcsGet, List.find?_cons_of_neg, h2k]
  | cons e es ih =>
    by_cases he : e.1 = k
    · subst he
      unfold gcsGet
      rw [gcsSet, if_pos rfl, List.find?_cons_of_neg _ (by simpa using h2k),
        List.find?_cons_of_neg _ (by simpa using h2k)]
    · unfold gcsGet at ih ⊢
      rw [gcsSet, if_neg he]
      by_cases h2 : e.1 = k2
      · rw [List.find?_cons_of_pos _ (by simpa using h2),
          List.find?_cons_of_pos _ (by simpa using h2)]
      · rw [List.find?_cons_of_neg _ (by simpa using h2),
          List.find?_cons_of_neg _ (by simpa using h2)]
        exact ih

/-- C6 witness: restoring version 2024-12-06 from a history folder whose
only archive is dated 2024-12-05 issues no call and reports the
version-not-found error. -/
theorem c6_witness :
    ("2024-12-06" ≠ "") ∧
    (∀ b ∈ c6RestoreEnv.archiveBlobs, strEndsWith b.1 ".zip" = true →
      versionOfBlob b.1 ≠ "2024-12-06") ∧
    ((restore_application_state c6RestoreEnv (some "2024-12-06")).1 = [] ∧
     (restore_application_state c6RestoreEnv (some "2024-12-06")).2 ≠ none ∧
     (c6RestoreEnv.archiveBlobs.filter (fun b => strEndsWith b.1 ".zip") ≠ [] →
       (restore_application_state c6RestoreEnv (some "2024-12-06")).2 =
         some ("Failed to download and unzip file: Specified version " ++ "2024-12-06" ++
           " was not found in archive."))) :=
  ⟨by decide, by decide,
   c6_unknown_version_no_writes c6RestoreEnv "2024-12-06" (by decide) (by decide)⟩

/-- C3 counterexample: in a run whose bulk export holds one deployed-app
file, an event that populates a namespace subdirectory (the extraction
of that file) occurs strictly before the `namespaces.json` write,
refuting the claim that `namespaces.json` is always written first. -/
theorem c3_counterexample_extraction_precedes_namespaces_json :
    ((backupTrace c3BackupEnv).any BEvent.populatesNsDir = true) ∧
    ((backupTrace c3BackupEnv).any BEvent.isNsJsonWrite = true) ∧
    (backupTrace c3BackupEnv).findIdx BEvent.populatesNsDir <
      (backupTrace c3BackupEnv).findIdx BEvent.isNsJsonWrite :=
  ⟨rfl, rfl, by decide⟩

/-- C3 (amended): `namespaces.json` is written after the bulk-export
extraction and the deployed-app formatting, and before every write of
the per-namespace draft/connection fetch loop and before the uploads:
the trace decomposes with the `namespaces.json` write strictly between
those phases. -/
theorem c3_namespaces_json_between_formatting_and_fetch_loop (env : BackupEnv)
    (hs : env.exportStatus = 200) (hne : env.namespaces ≠ []) :
    backupTrace env =
      (BEvent.exportRequested 200 ::
        (env.exportFiles.map (fun e => .extracted e.1 e.2.1 e.2.2) ++
         (format_deployed_apps env.parse env.namespaces (exportFs env.exportFiles)).1)) ++
      BEvent.wroteFile ["namespaces.json"]
          (Json.arr (env.namespaces.map NamespaceMeta.toJson)) ::
      ((backupNamespaces env env.namespaces
          (fsInsert (format_deployed_apps env.parse env.namespaces
              (exportFs env.exportFiles)).2 ["namespaces.json"]
            (Json.arr (env.namespaces.map NamespaceMeta.toJson)))).1 ++
       [save_to_gcs env (env.today ++ "_backup.zip") (stagingTree env) "cdf/archive",
        save_to_gcs env "backup.zip" (stagingTree env) "cdf/latest"]) := by
  have hdec := backup_trace_decomposition env hs hne
  unfold backupTrace
  rw [hdec]
  simp [List.cons_append, List.append_assoc]

/-- C3 witness: the amended decomposition at the concrete one-app
environment. -/
theorem c3_witness :
    c3BackupEnv.exportStatus = 200 ∧ c3BackupEnv.namespaces ≠ [] ∧
    backupTrace c3BackupEnv =
      (BEvent.exportRequested 200 ::
        (c3BackupEnv.exportFiles.map (fun e => .extracted e.1 e.2.1 e.2.2) ++
         (format_deployed_apps c3BackupEnv.parse c3BackupEnv.namespaces
            (exportFs c3BackupEnv.exportFiles)).1)) ++
      BEvent.wroteFile ["namespaces.json"]
          (Json.arr (c3BackupEnv.namespaces.map NamespaceMeta.toJson)) ::
      ((backupNamespaces c3BackupEnv c3BackupEnv.namespaces
          (fsInsert (format_deployed_apps c3BackupEnv.parse c3BackupEnv.namespaces
              (exportFs c3BackupEnv.exportFiles)).2 ["namespaces.json"]
            (Json.arr (c3BackupEnv.namespaces.map NamespaceMeta.toJson)))).1 ++
       [save_to_gcs c3BackupEnv (c3BackupEnv.today ++ "_backup.zip")
          (stagingTree c3BackupEnv) "cdf/archive",
        save_to_gcs c3BackupEnv "backup.zip" (stagingTree c3BackupEnv) "cdf/latest"]) :=
  ⟨rfl, by simp [c3BackupEnv],
   c3_namespaces_json_between_formatting_and_fetch_loop c3BackupEnv rfl
     (by simp [c3BackupEnv])⟩

/-- C5 counterexample: with the latest-slot upload failing, the run
records the failure, still finishes without any escaping error (the
exception is logged and swallowed in `save_to_gcs`), and the latest slot
keeps the stale archive of an earlier run even though this run produced
a non-empty archive — refuting both that the latest slot always holds
the newest successful run and that an upload failure is not silently
accepted. -/
theorem c5_counterexample_upload_failure_swallowed :
    ((backupTrace c5BackupEnv).any BEvent.isUploadFailed) = true ∧
    backupErr c5BackupEnv = none ∧
    gcsGet (gcsAfterBackup c5Gcs0 c5BackupEnv) ("cdf/latest", "backup.zip") = some [] ∧
    (stagingTree c5BackupEnv).isEmpty = false :=
  ⟨rfl, rfl, rfl, rfl⟩

/-- C5 (amended): when a backup run reaches the publish step and both
uploads succeed, the history location gains the dated entry for this run
and the latest slot holds this run's archive; when an upload fails, the
failure is only logged — the run still ends without an escaping
error. -/
theorem c5_successful_uploads_update_both_slots (env : BackupEnv) (g : GcsState)
    (hs : env.exportStatus = 200) (hne : env.namespaces ≠ [])
    (hup1 : env.uploadOk "cdf/archive" (env.today ++ "_backup.zip") = true)
    (hup2 : env.uploadOk "cdf/latest" "backup.zip" = true) :
    backupErr env = none ∧
    gcsGet (gcsAfterBackup g env) ("cdf/latest", "backup.zip") = some (stagingTree env) ∧
    gcsGet (gcsAfterBackup g env) ("cdf/archive", env.today ++ "_backup.zip") =
      some (stagingTree env) := by
  have hdec := backup_trace_decomposition env hs hne
  have herr : backupErr env = none := by
    unfold backupErr
    rw [hdec]
  have htr : backupTrace env =
      (BEvent.exportRequested 200 ::
        (env.exportFiles.map (fun e => .extracted e.1 e.2.1 e.2.2) ++
         ((format_deployed_apps env.parse env.namespaces (exportFs env.exportFiles)).1 ++
          BEvent.wroteFile ["namespaces.json"]
              (Json.arr (env.namespaces.map NamespaceMeta.toJson)) ::
          (backupNamespaces env env.namespaces
             (fsInsert (format_deployed_apps env.parse env.namespaces
                 (exportFs env.exportFiles)).2 ["namespaces.json"]
               (Json.arr (env.namespaces.map NamespaceMeta.toJson)))).1))) ++
      [save_to_gcs env (env.today ++ "_backup.zip") (stagingTree env) "cdf/archive",
       save_to_gcs env "backup.zip" (stagingTree env) "cdf/latest"] := by
    unfold backupTrace
    rw [hdec]
    simp [List.cons_append, List.append_assoc]
  have hkne : (("cdf/archive", env.today ++ "_backup.zip") : String × String) ≠
      ("cdf/latest", "backup.zip") := by
    intro hx
    have h1 := congrArg Prod.fst hx
    simp at h1
  have hfold : gcsAfterBackup g env =
      gcsSet (gcsSet ((BEvent.exportRequested 200 ::
        (env.exportFiles.map (fun e => .extracted e.1 e.2.1 e.2.2) ++
         ((format_deployed_apps env.parse env.namespaces (exportFs env.exportFiles)).1 ++
          BEvent.wroteFile ["namespaces.json"]
              (Json.arr (env.namespaces.map NamespaceMeta.toJson)) ::
          (backupNamespaces env env.namespaces
             (fsInsert (format_deployed_apps env.parse env.namespaces
                 (exportFs env.exportFiles)).2 ["namespaces.json"]
               (Json.arr (env.namespaces.map NamespaceMeta.toJson)))).1))).foldl
          applyBEvent g)
        ("cdf/archive", env.today ++ "_backup.zip") (stagingTree env))
        ("cdf/latest", "backup.zip") (stagingTree env) := by
    unfold gcsAfterBackup
    rw [htr, List.foldl_append]
    simp [save_to_gcs, hup1, hup2, applyBEvent]
  refine ⟨herr, ?_, ?_⟩
  · rw [hfold, gcsGet_gcsSet_self]
  · rw [hfold, gcsGet_gcsSet_ne _ _ _ _ hkne, gcsGet_gcsSet_self]

/-- C5 witness: the amended behaviour at a concrete environment whose
uploads both succeed, starting from storage holding a stale latest
archive. -/
theorem c5_witness :
    c5OkBackupEnv.exportStatus = 200 ∧ c5OkBackupEnv.namespaces ≠ [] ∧
    c5OkBackupEnv.uploadOk "cdf/archive" (c5OkBackupEnv.today ++ "_backup.zip") = true ∧
    c5OkBackupEnv.uploadOk "cdf/latest" "backup.zip" = true ∧
    (backupErr c5OkBackupEnv = none ∧
     gcsGet (gcsAfterBackup c5Gcs0 c5OkBackupEnv) ("cdf/latest", "backup.zip") =
       some (stagingTree c5OkBackupEnv) ∧
     gcsGet (gcsAfterBackup c5Gcs0 c5OkBackupEnv)
         ("cdf/archive", c5OkBackupEnv.today ++ "_backup.zip") =
       some (stagingTree c5OkBackupEnv)) :=
  ⟨rfl, by simp [c5OkBackupEnv], rfl, rfl,
   c5_successful_uploads_update_both_slots c5OkBackupEnv c5Gcs0 rfl
     (by simp [c5OkBackupEnv]) rfl rfl⟩

/-- C10: when the namespace list read from `namespaces.json` holds an
entry whose directory is absent from the extracted archive, the restore
loop processes the earlier namespaces, then raises the unhandled
file-not-found error of `os.listdir` at that entry, and no namespace
after it is touched: the call trace is exactly that of the earlier
namespaces. -/
theorem c10_missing_namespace_dir_aborts_loop (env : RestoreEnv) (fs : Fs)
    (l1 l2 : List Json) (nsJ : Json) (name : String)
    (hname : nsJ.get "name" = some (.str name))
    (hmiss : dirExists fs name = false)
    (hok : ∀ x ∈ l1, (restoreNamespace env fs x).2 = none) :
    restoreNamespaces env fs (l1 ++ nsJ :: l2) =
      (l1.flatMap (fun x => (restoreNamespace env fs x).1),
       some ("FileNotFoundError: No such file or directory: " ++ name)) := by
  induction l1 with
  | nil =>
    simp only [List.nil_append, List.flatMap_nil]
    simp [restoreNamespaces, restoreNamespace, hname, hmiss]
  | cons x xs ih =>
    have hx := hok x (List.mem_cons_self x xs)
    have ihh := ih (fun y hy => hok y (List.mem_cons_of_mem x hy))
    simp only [List.cons_append, restoreNamespaces, hx, ihh]
    simp [List.flatMap_cons, ihh]

/-- C10 witness: restoring the archive staged by the C10 backup — whose
`ns2` and `ns3` owned nothing and so have no directory — restores `ns1`,
then fails with the file-not-found error at `ns2`, never reaching
`ns3`. -/
theorem c10_witness :
    (Json.obj [("name", .str "ns2")]).get "name" = some (.str "ns2") ∧
    dirExists c10Fs "ns2" = false ∧
    (∀ x ∈ [Json.obj [("name", .str "ns1")]],
      (restoreNamespace c10RestoreEnv c10Fs x).2 = none) ∧
    restoreNamespaces c10RestoreEnv c10Fs
        ([Json.obj [("name", .str "ns1")]] ++
          Json.obj [("name", .str "ns2")] :: [Json.obj [("name", .str "ns3")]]) =
      ([Json.obj [("name", .str "ns1")]].flatMap
         (fun x => (restoreNamespace c10RestoreEnv c10Fs x).1),
       some ("FileNotFoundError: No such file or directory: " ++ "ns2")) :=
  ⟨rfl, rfl, by decide,
   c10_missing_namespace_dir_aborts_loop c10RestoreEnv c10Fs
     [Json.obj [("name", .str "ns1")]] [Json.obj [("name", .str "ns3")]]
     (Json.obj [("name", .str "ns2")]) "ns2" rfl rfl (by decide)⟩

/-- Helper: replaying a deployed-app file issues only app upserts. -/
theorem restoreAppFile_not_create (ns : String) (fs : Fs) (f : String) :
    ∀ e ∈ restoreAppFile ns fs f, e.isCreate = false := by
  intro e he
  unfold restoreAppFile at he
  cases hc : (fsGet fs [ns, f]).getD .null <;> rw [hc] at he <;> simp at he
  case obj fields =>
    rw [he]
    rfl

/-- Helper: replaying a connection file issues only connection
upserts. -/
theorem restoreConnFile_not_create (ns : String) (fs : Fs) (f : String) :
    ∀ e ∈ (restoreConnFile ns fs f).1, e.isCreate = false := by
  intro e he
  unfold restoreConnFile at he
  cases hc : ((fsGet fs [ns, f]).getD .null).get "name" <;> rw [hc] at he <;> simp at he
  case some v =>
    rw [he]
    rfl

/-- Helper: replaying a draft file issues only draft upserts. -/
theorem restoreDraftFile_not_create (ns : String) (fs : Fs) (f : String) :
    ∀ e ∈ (restoreDraftFile ns fs f).1, e.isCreate = false := by
  intro e he
  unfold restoreDraftFile at he
  cases hc : (fsGet fs [ns, f]).getD .null <;> rw [hc] at he
  case obj fields =>
    simp only at he
    cases hg : (Json.obj fields).get "id" <;> rw [hg] at he <;>
      cases hn : (Json.obj fields).get "name" <;> rw [hn] at he <;> simp at he
    case some.none v =>
      rw [he]
      rfl
    case some.some v w =>
      rw [he]
      rfl
  all_goals simp at he

/-- Helper: the connection loop issues no namespace creation. -/
theorem runConnFiles_not_create (ns : String) (fs : Fs) (l : List String) :
    ∀ e ∈ (runConnFiles ns fs l).1, e.isCreate = false := by
  induction l with
  | nil => intro e he; cases he
  | cons f rest ih =>
    intro e he
    unfold runConnFiles at he
    cases hc : (restoreConnFile ns fs f).2 <;> rw [hc] at he <;> simp at he
    case none =>
      rcases he with h1 | h2
      · exact restoreConnFile_not_create ns fs f e h1
      · exact ih e h2
    case some err =>
      exact restoreConnFile_not_create ns fs f e he

/-- Helper: the draft loop (with its nested connection loop) issues no
namespace creation. -/
theorem runDraftFiles_not_create (ns : String) (fs : Fs) (cf : List String)
    (l : List String) : ∀ e ∈ (runDraftFiles ns fs cf l).1, e.isCreate = false := by
  induction l with
  | nil => intro e he; cases he
  | cons f rest ih =>
    intro e he
    unfold runDraftFiles at he
    cases hd : (restoreDraftFile ns fs f).2 <;> rw [hd] at he <;>
      simp only [List.mem_append] at he
    case none =>
      cases hc : (runConnFiles ns fs cf).2 <;> rw [hc] at he <;>
        simp only [List.mem_append] at he
      case none =>
        rcases he with (h1 | h2) | h3
        · exact restoreDraftFile_not_create ns fs f e h1
        · exact runConnFiles_not_create ns fs cf e h2
        · exact ih e h3
      case some err =>
        rcases he with h1 | h2
        · exact restoreDraftFile_not_create ns fs f e h1
        · exact runConnFiles_not_create ns fs cf e h2
    case some err =>
      exact restoreDraftFile_not_create ns fs f e he

/-- Helper: the per-namespace restore body issues a namespace-creation
PUT only for the namespace name it processes, and never for
`default`. -/
theorem restoreNamespace_not_create_default (env : RestoreEnv) (fs : Fs) (nsJ : Json) :
    ∀ e ∈ (restoreNamespace env fs nsJ).1, REvent.createsNamespace "default" e = false := by
  have hbody : ∀ (name : String), ∀ e ∈ ((appFilesOf (listdir fs name)).flatMap
      (restoreAppFile name fs) ++
      (runDraftFiles name fs (connFilesOf (listdir fs name))
        (draftFilesOf (listdir fs name))).1), REvent.createsNamespace "default" e = false := by
    intro name e he
    have hnc : e.isCreate = false := by
      rcases List.mem_append.mp he with h1 | h2
      · rcases List.mem_flatMap.mp h1 with ⟨f, hf, hef⟩
        exact restoreAppFile_not_create name fs f e hef
      · exact runDraftFiles_not_create name fs _ _ e h2
    cases e with
    | createNamespace n p => simp [REvent.isCreate] at hnc
    | upsertApp a b c => rfl
    | upsertDraft a b c => rfl
    | upsertConnection a b c => rfl
  intro e he
  unfold restoreNamespace at he
  cases hg : nsJ.get "name" <;> rw [hg] at he
  case none => simp at he
  case some nv =>
    cases nv <;> simp at he
    case str name =>
      by_cases hd : dirExists fs name
      · rw [if_pos hd] at he
        by_cases hdef : name = "default"
        · rw [if_pos hdef] at he
          exact hbody name e he
        · rw [if_neg hdef] at he
          by_cases hok : env.createNsOk name
          · rw [if_pos hok] at he
            rcases List.mem_cons.mp he with rfl | h2
            · simp [REvent.createsNamespace, hdef]
            · exact hbody name e h2
          · rw [if_neg hok] at he
            rcases List.mem_singleton.mp he with rfl
            simp [REvent.createsNamespace, hdef]
      · rw [if_neg hd] at he
        simp at he

/-- Helper: the whole restore loop of `cdf_export.py` never issues a
namespace-creation PUT for `default`. -/
theorem restoreNamespaces_not_create_default (env : RestoreEnv) (fs : Fs)
    (l : List Json) :
    ∀ e ∈ (restoreNamespaces env fs l).1, REvent.createsNamespace "default" e = false := by
  induction l with
  | nil => intro e he; cases he
  | cons nsJ rest ih =>
    intro e he
    unfold restoreNamespaces at he
    cases hc : (restoreNamespace env fs nsJ).2 <;> rw [hc] at he <;> simp at he
    case none =>
      rcases he with h1 | h2
      · exact restoreNamespace_not_create_default env fs nsJ e h1
      · exact ih e h2
    case some err =>
      exact restoreNamespace_not_create_default env fs nsJ e he

/-- Helper: the whole `cdf_export.py` restore run never issues a
namespace-creation PUT for `default`. -/
theorem restore_run_not_create_default (env : RestoreEnv) (v : Option String) :
    ∀ e ∈ (restore_application_state env v).1,
      REvent.createsNamespace "default" e = false := by
  intro e he
  unfold restore_application_state at he
  simp only [] at he
  split at he
  · simp at he
  · split at he
    all_goals
      first
        | exact restoreNamespaces_not_create_default env _ _ e he
        | simp at he

/-- Helper: a name listed by `listdir` shows its directory exists. -/
theorem dirExists_of_mem_listdir (t : Fs) (d f : String) (h : f ∈ listdir t d) :
    dirExists t d = true := by
  unfold listdir at h
  rcases List.mem_filterMap.mp h with ⟨e, he, hmatch⟩
  unfold dirExists
  rw [List.any_eq_true]
  refine ⟨e, he, ?_⟩
  obtain ⟨p, c⟩ := e
  unfold dirFileOf at hmatch
  simp only at hmatch
  cases p with
  | nil => simp at hmatch
  | cons a tail =>
    cases tail with
    | nil => simp at hmatch
    | cons b tail2 =>
      cases tail2 with
      | nil =>
        simp only at hmatch
        by_cases had : a = d
        · subst had
          simp [List.head?]
        · rw [if_neg had] at hmatch
          cases hmatch
      | cons c2 t3 => simp at hmatch

/-- Helper: every call computed for a listed draft file is issued by the
draft loop, provided no listed draft document aborts the loop and the
nested connection replay raises nothing. -/
theorem mem_runDraftFiles (ns : String) (fs : Fs) (cf : List String) (f : String)
    (l : List String) (hf : f ∈ l)
    (hdOk : ∀ g ∈ l, (restoreDraftFile ns fs g).2 = none)
    (hcOk : (runConnFiles ns fs cf).2 = none) :
    ∀ e ∈ (restoreDraftFile ns fs f).1, e ∈ (runDraftFiles ns fs cf l).1 := by
  induction l with
  | nil => cases hf
  | cons g rest ih =>
    intro e he
    unfold runDraftFiles
    rw [hdOk g (List.mem_cons_self g rest), hcOk]
    simp only [List.mem_append]
    rcases List.mem_cons.mp hf with rfl | h2
    · left; left; exact he
    · right
      exact ih h2 (fun x hx => hdOk x (List.mem_cons_of_mem g hx)) e he

/-- Helper: the per-namespace restore body of `cdf_export.py` issues
every deployed-app upsert of the `default` namespace. -/
theorem restoreNamespace_default_upserts_apps (env : RestoreEnv) (fs : Fs)
    (nsJ : Json) (f : String)
    (hname : nsJ.get "name" = some (.str "default"))
    (hf : f ∈ appFilesOf (listdir fs "default")) :
    ∀ e ∈ restoreAppFile "default" fs f, e ∈ (restoreNamespace env fs nsJ).1 := by
  intro e he
  have hfl : f ∈ listdir fs "default" := (List.mem_filter.mp hf).1
  have hdir : dirExists fs "default" = true := dirExists_of_mem_listdir fs "default" f hfl
  unfold restoreNamespace
  rw [hname]
  simp only [hdir, if_true, if_pos rfl]
  exact List.mem_append_left _ (List.mem_flatMap.mpr ⟨f, hf, he⟩)

/-- Helper: the per-namespace restore body of `cdf_export.py` issues
every draft upsert of the `default` namespace, provided no staged draft
document of the namespace aborts the loop and the nested connection
replay raises nothing. -/
theorem restoreNamespace_default_upserts_drafts (env : RestoreEnv) (fs : Fs)
    (nsJ : Json) (f : String)
    (hname : nsJ.get "name" = some (.str "default"))
    (hf : f ∈ draftFilesOf (listdir fs "default"))
    (hdOk : ∀ g ∈ draftFilesOf (listdir fs "default"),
      (restoreDraftFile "default" fs g).2 = none)
    (hcOk : (runConnFiles "default" fs (connFilesOf (listdir fs "default"))).2 = none) :
    ∀ e ∈ (restoreDraftFile "default" fs f).1, e ∈ (restoreNamespace env fs nsJ).1 := by
  intro e he
  have hfl : f ∈ listdir fs "default" := (List.mem_filter.mp hf).1
  have hdir : dirExists fs "default" = true := dirExists_of_mem_listdir fs "default" f hfl
  unfold restoreNamespace
  rw [hname]
  simp only [hdir, if_true, if_pos rfl]
  exact List.mem_append_right _
    (mem_runDraftFiles "default" fs _ f _ hf hdOk hcOk e he)

/-- Helper: the per-namespace backup body of `cdf_state.py` never
writes, or attempts to write, under the `default` directory. -/
theorem sBackupNamespace_not_default (env : CdfState.SBackupEnv) (n : NamespaceMeta) :
    ∀ e ∈ CdfState.sBackupNamespace env n, BEvent.writesUnder "default" e = false := by
  intro e he
  unfold CdfState.sBackupNamespace at he
  by_cases hd : n.name = "default"
  · rw [if_pos hd] at he
    cases he
  · rw [if_neg hd] at he
    cases ha : env.appsList n.name <;> rw [ha] at he
    · cases hc : env.connections n.name <;> rw [hc] at he
      · cases he
      · simp at he
        rw [he]
        simp [BEvent.writesUnder, hd]
    · simp at he
      rw [he]
      simp [BEvent.writesUnder, hd]

/-- Helper: no event of a `cdf_state.py` backup run touches the
`default` directory. -/
theorem cdf_state_backup_skips_default (env : CdfState.SBackupEnv) :
    ∀ e ∈ (CdfState.backup_application_state env).1,
      BEvent.writesUnder "default" e = false := by
  intro e he
  unfold CdfState.backup_application_state at he
  by_cases hne : env.namespaces.isEmpty
  · rw [if_pos hne] at he
    simp at he
    rw [he]
    rfl
  · rw [if_neg hne] at he
    rcases List.mem_cons.mp he with rfl | h2
    · rfl
    rcases List.mem_append.mp h2 with h3 | h4
    · rcases List.mem_flatMap.mp h3 with ⟨n, hn, hen⟩
      exact sBackupNamespace_not_default env n e hen
    · rcases List.mem_singleton.mp h4 with rfl
      rfl

/-- Helper: the per-namespace restore body of `cdf_state.py` does
nothing at all for the `default` namespace. -/
theorem cdf_state_restore_skips_default (env : CdfState.SRestoreEnv) (nsJ : Json)
    (hname : nsJ.get "name" = some (.str "default")) :
    CdfState.sRestoreNamespace env nsJ = ([], none) := by
  unfold CdfState.sRestoreNamespace
  rw [hname]
  rfl

/-- C2 (amended): in `cdf_export.py`, no restore run ever issues a
namespace-creation PUT for `default`, while backup stages the drafts and
connections of every listed namespace — `default` included — and the
per-namespace restore body still upserts the staged deployed apps of
`default`, and its pipeline drafts provided no staged draft document of
the namespace aborts the loop (the loop log lines subscript the
pipeline name, so a document without a usable name raises out of the
run) and the nested connection replay raises nothing; in
`cdf_state.py`, however, no backup event writes or attempts to write
under the `default` directory and the per-namespace restore body does
nothing at all for `default`. -/
theorem c2_default_never_recreated_but_state_variant_skips_it :
    (∀ (env : RestoreEnv) (v : Option String),
      ∀ e ∈ (restore_application_state env v).1,
        REvent.createsNamespace "default" e = false) ∧
    (∀ (env : BackupEnv) (n : NamespaceMeta) (d : DraftMeta),
      env.exportStatus = 200 → n ∈ env.namespaces → d ∈ env.pipelinesList n.name →
      BEvent.wroteFile [n.name, "draft_" ++ d.name ++ ".json"]
        (optJson (env.fetchPipeline n.name d.id)) ∈ backupTrace env) ∧
    (∀ (env : BackupEnv) (n : NamespaceMeta) (c : Conn),
      env.exportStatus = 200 → n ∈ env.namespaces → c ∈ env.connections n.name →
      BEvent.wroteFile [n.name, "conn_" ++ c.name ++ ".json"] c.toJson ∈ backupTrace env) ∧
    (∀ (env : RestoreEnv) (fs : Fs) (nsJ : Json) (f : String),
      nsJ.get "name" = some (.str "default") →
      f ∈ appFilesOf (listdir fs "default") →
      ∀ e ∈ restoreAppFile "default" fs f, e ∈ (restoreNamespace env fs nsJ).1) ∧
    (∀ (env : RestoreEnv) (fs : Fs) (nsJ : Json) (f : String),
      nsJ.get "name" = some (.str "default") →
      f ∈ draftFilesOf (listdir fs "default") →
      (∀ g ∈ draftFilesOf (listdir fs "default"),
        (restoreDraftFile "default" fs g).2 = none) →
      (runConnFiles "default" fs (connFilesOf (listdir fs "default"))).2 = none →
      ∀ e ∈ (restoreDraftFile "default" fs f).1, e ∈ (restoreNamespace env fs nsJ).1) ∧
    (∀ (env : CdfState.SBackupEnv),
      ∀ e ∈ (CdfState.backup_application_state env).1,
        BEvent.writesUnder "default" e = false) ∧
    (∀ (env : CdfState.SRestoreEnv) (nsJ : Json),
      nsJ.get "name" = some (.str "default") →
      CdfState.sRestoreNamespace env nsJ = ([], none)) := by
  refine ⟨restore_run_not_create_default, ?_, ?_, ?_, ?_,
    cdf_state_backup_skips_default, cdf_state_restore_skips_default⟩
  · intro env n d hs hn hd
    have hne : env.namespaces ≠ [] := by
      intro h; rw [h] at hn; cases hn
    have hdec := backup_trace_decomposition env hs hne
    unfold backupTrace
    rw [hdec]
    refine List.mem_cons_of_mem _ ?_
    refine List.mem_append_right _ ?_
    refine List.mem_append_right _ ?_
    refine List.mem_cons_of_mem _ ?_
    refine List.mem_append_left _ ?_
    exact mem_trace_backupNamespaces env hn
      (fun t => mem_trace_backupNamespace_draft env n d hd t) _
  · intro env n c hs hn hc
    have hne : env.namespaces ≠ [] := by
      intro h; rw [h] at hn; cases hn
    have hdec := backup_trace_decomposition env hs hne
    unfold backupTrace
    rw [hdec]
    refine List.mem_cons_of_mem _ ?_
    refine List.mem_append_right _ ?_
    refine List.mem_append_right _ ?_
    refine List.mem_cons_of_mem _ ?_
    refine List.mem_append_left _ ?_
    exact mem_trace_backupNamespaces env hn
      (fun t => mem_trace_backupNamespace_conn env n c hc t) _
  · exact restoreNamespace_default_upserts_apps
  · exact restoreNamespace_default_upserts_drafts

/-- C2 counterexample: a `cdf_state.py` backup over a namespace list
containing only `default`, which owns a pipeline and a connection,
produces no write — not even an attempted one — under the `default`
directory, refuting the claim that every backup run writes the owned
resources of `default`. -/
theorem c2_counterexample_state_backup_writes_nothing_for_default :
    c2StateBackupEnv.appsList "default" ≠ [] ∧
    c2StateBackupEnv.connections "default" ≠ [] ∧
    (CdfState.backup_application_state c2StateBackupEnv).1.all
      (fun e => !(BEvent.writesUnder "default" e)) = true ∧
    (CdfState.backup_application_state c2StateBackupEnv).1.all
      (fun e => !(BEvent.writesUnder "default" e) && !(e.isExtracted)) = true :=
  ⟨by simp [c2StateBackupEnv], by simp [c2StateBackupEnv], rfl, rfl⟩

/-- C2 witness: the amended behaviour at concrete environments — the
export-variant restore of an archive whose only namespace is `default`
creates nothing, the export-variant backup stages default resources, its
restore body upserts the staged app and draft of `default`, and the
state-variant backup and restore leave `default` untouched. -/
theorem c2_witness :
    ((restore_application_state c2ExportRestoreEnv none).1.all
      (fun e => !(REvent.createsNamespace "default" e)) = true) ∧
    BEvent.wroteFile ["default", "draft_p1.json"]
        (Json.obj [("id", .str "d1"), ("name", .str "p1")]) ∈
      backupTrace c2ExportBackupEnv ∧
    BEvent.wroteFile ["default", "conn_c1.json"]
        (Json.obj [("name", .str "c1")]) ∈ backupTrace c2ExportBackupEnv ∧
    REvent.upsertApp "default" "a" (Json.obj [("name", .str "a")]) ∈
      (restoreNamespace c2ExportRestoreEnv c2DefaultFs
        (Json.obj [("name", .str "default")])).1 ∧
    REvent.upsertDraft "default" "d1"
        (Json.obj [("id", .str "d1"), ("name", .str "p1")]) ∈
      (restoreNamespace c2ExportRestoreEnv c2DefaultFs
        (Json.obj [("name", .str "default")])).1 ∧
    ((CdfState.backup_application_state c2StateBackupEnv).1.all
      (fun e => !(BEvent.writesUnder "default" e)) = true) ∧
    CdfState.sRestoreNamespace c2StateRestoreEnv
        (Json.obj [("name", .str "default")]) = ([], none) := by
  obtain ⟨h1, h2, h3, h4, h5, h6, h7⟩ :=
    c2_default_never_recreated_but_state_variant_skips_it
  refine ⟨?_, ?_, ?_, ?_, ?_, ?_, ?_⟩
  · rw [List.all_eq_true]
    intro e he
    rw [h1 c2ExportRestoreEnv none e he]
    rfl
  · simpa using h2 c2ExportBackupEnv ⟨"default", []⟩ ⟨"p1", "d1"⟩ rfl
      (by simp [c2ExportBackupEnv]) (by simp [c2ExportBackupEnv])
  · simpa [Conn.toJson] using h3 c2ExportBackupEnv ⟨"default", []⟩ ⟨"c1", []⟩ rfl
      (by simp [c2ExportBackupEnv]) (by simp [c2ExportBackupEnv])
  · exact h4 c2ExportRestoreEnv c2DefaultFs (Json.obj [("name", .str "default")])
      "app_a.json" rfl (by decide) _ (List.Mem.head _)
  · exact h5 c2ExportRestoreEnv c2DefaultFs (Json.obj [("name", .str "default")])
      "draft_p1.json" rfl (by decide) (by decide) rfl _ (List.Mem.head _)
  · rw [List.all_eq_true]
    intro e he
    rw [h6 c2StateBackupEnv e he]
    rfl
  · exact h7 c2StateRestoreEnv (Json.obj [("name", .str "default")]) rfl

/-- Helper: looking up the path just written yields the new content. -/
theorem fsGet_fsInsert_self (t : Fs) (p : List String) (c : Json) :
    fsGet (fsInsert t p c) p = some c := by
  induction t with
  | nil => simp [fsInsert, fsGet]
  | cons e es ih =>
    by_cases h : e.1 = p
    · simp [fsInsert, h, fsGet]
    · simp only [fsInsert, if_neg h]
      unfold fsGet at ih ⊢
      rw [List.find?_cons_of_neg _ (by simp [h])]
      exact ih

/-- Helper: writing one path leaves lookups of a different path
unchanged. -/
theorem fsGet_fsInsert_ne (t : Fs) (p q : List String) (c : Json)
    (h : q ≠ p) : fsGet (fsInsert t p c) q = fsGet t q := by
  have hpq : ¬p = q := fun hx => h hx.symm
  induction t with
  | nil => simp [fsInsert, fsGet, List.find?_cons_of_neg, hpq]
  | cons e es ih =>
    by_cases he : e.1 = p
    · subst he
      unfold fsGet
      rw [fsInsert, if_pos rfl, List.find?_cons_of_neg _ (by simpa using hpq),
        List.find?_cons_of_neg _ (by simpa using hpq)]
    · unfold fsGet at ih ⊢
      rw [fsInsert, if_neg he]
      by_cases h2 : e.1 = q
      · rw [List.find?_cons_of_pos _ (by simpa using h2),
          List.find?_cons_of_pos _ (by simpa using h2)]
      · rw [List.find?_cons_of_neg _ (by simpa using h2),
          List.find?_cons_of_neg _ (by simpa using h2)]
        exact ih

/-- Helper: the erased path is gone. -/
theorem fsGet_fsErase_self (t : Fs) (p : List String) :
    fsGet (fsErase t p) p = none := by
  induction t with
  | nil => rfl
  | cons e es ih =>
    unfold fsErase at ih ⊢
    by_cases h : e.1 = p
    · rw [List.filter_cons_of_neg (by simp [h])]
      exact ih
    · rw [List.filter_cons_of_pos (by simp [h])]
      unfold fsGet at ih ⊢
      rw [List.find?_cons_of_neg _ (by simp [h])]
      exact ih

/-- Helper: erasing one path leaves lookups of a different path
unchanged. -/
theorem fsGet_fsErase_ne (t : Fs) (p q : List String) (h : q ≠ p) :
    fsGet (fsErase t p) q = fsGet t q := by
  induction t with
  | nil => rfl
  | cons e es ih =>
    unfold fsErase at ih ⊢
    by_cases hp : e.1 = p
    · rw [List.filter_cons_of_neg (by simp [hp])]
      unfold fsGet at ih ⊢
      rw [ih]
      rw [List.find?_cons_of_neg _ (by simp [hp]; intro hx; exact h (hx ▸ hp ▸ rfl))]
    · rw [List.filter_cons_of_pos (by simp [hp])]
      unfold fsGet at ih ⊢
      by_cases hq : e.1 = q
      · rw [List.find?_cons_of_pos _ (by simpa using hq),
          List.find?_cons_of_pos _ (by simpa using hq)]
      · rw [List.find?_cons_of_neg _ (by simpa using hq),
          List.find?_cons_of_neg _ (by simpa using hq)]
        exact ih

/-- Helper: a rename leaves every path other than its source and target
unchanged. -/
theorem fsGet_fsRename_ne (t : Fs) (old new q : List String)
    (h1 : q ≠ old) (h2 : q ≠ new) :
    fsGet (fsRename t old new) q = fsGet t q := by
  unfold fsRename
  cases hc : fsGet t old with
  | none => rfl
  | some c =>
    rw [fsGet_fsInsert_ne _ _ _ _ h2, fsGet_fsErase_ne _ _ _ h1]

/-- Helper: after a rename the target path holds the moved content. -/
theorem fsGet_fsRename_new (t : Fs) (old new : List String) (c : Json)
    (hc : fsGet t old = some c) :
    fsGet (fsRename t old new) new = some c := by
  unfold fsRename
  rw [hc, fsGet_fsInsert_self]

/-- Helper: after a rename to a different path the source path is
gone. -/
theorem fsGet_fsRename_old (t : Fs) (old new : List String)
    (h : old ≠ new) : fsGet (fsRename t old new) old = none := by
  unfold fsRename
  cases hc : fsGet t old with
  | none => exact hc
  | some c =>
    rw [fsGet_fsInsert_ne _ _ _ _ h, fsGet_fsErase_self]

/-- Helper: a staged draft file name never coincides with a formatted
app file name. -/
theorem draft_key_ne_app (x y : String) : ("draft_" ++ x) ≠ ("app_" ++ y) := by
  intro h
  have h2 : ("draft_" ++ x).data = ("app_" ++ y).data := congrArg String.data h
  have h3 : ("draft_" ++ x).data = "draft_".data ++ x.data := rfl
  have h4 : ("app_" ++ y).data = "app_".data ++ y.data := rfl
  rw [h3, h4] at h2
  simp at h2

/-- Helper: a staged connection file name never coincides with a
formatted app file name. -/
theorem conn_key_ne_app (x y : String) : ("conn_" ++ x) ≠ ("app_" ++ y) := by
  intro h
  have h2 : ("conn_" ++ x).data = ("app_" ++ y).data := congrArg String.data h
  have h3 : ("conn_" ++ x).data = "conn_".data ++ x.data := rfl
  have h4 : ("app_" ++ y).data = "app_".data ++ y.data := rfl
  rw [h3, h4] at h2
  simp at h2

/-- Helper: writing a file outside a directory does not change that
directory listing. -/
theorem dirFileOf_eq_none (ns : String) (p : List String) (c : Json)
    (h : p.head? ≠ some ns) : dirFileOf ns (p, c) = none := by
  unfold dirFileOf
  match p with
  | [] => rfl
  | [a] => rfl
  | a :: b :: x :: rest => rfl
  | [a, b] =>
    have ha : a ≠ ns := by
      intro hx
      exact h (by simp [List.head?, hx])
    simp [ha]

/-- Helper: the contribution of an entry to a listing depends only on
its path. -/
theorem dirFileOf_path (ns : String) (p : List String) (c c2 : Json) :
    dirFileOf ns (p, c) = dirFileOf ns (p, c2) := rfl

/-- Helper: writing a file outside a directory does not change that
directory listing. -/
theorem listdir_fsInsert_other (t : Fs) (p : List String) (c : Json) (ns : String)
    (h : p.head? ≠ some ns) : listdir (fsInsert t p c) ns = listdir t ns := by
  induction t with
  | nil => simp [fsInsert, listdir, List.filterMap_cons, dirFileOf_eq_none ns p c h]
  | cons e es ih =>
    by_cases he : e.1 = p
    · rw [fsInsert, if_pos he]
      unfold listdir
      rw [List.filterMap_cons, List.filterMap_cons]
      obtain ⟨p1, c1⟩ := e
      simp only at he
      subst he
      rw [dirFileOf_eq_none ns p1 c h, dirFileOf_eq_none ns p1 c1 h]
    · rw [fsInsert, if_neg he]
      unfold listdir at ih ⊢
      rw [List.filterMap_cons, List.filterMap_cons]
      cases hm : dirFileOf ns e with
      | none => exact ih
      | some b => rw [ih]

/-- Helper: erasing a file outside a directory does not change that
directory listing. -/
theorem listdir_fsErase_other (t : Fs) (p : List String) (ns : String)
    (h : p.head? ≠ some ns) : listdir (fsErase t p) ns = listdir t ns := by
  induction t with
  | nil => rfl
  | cons e es ih =>
    unfold fsErase at ih ⊢
    by_cases he : e.1 = p
    · rw [List.filter_cons_of_neg (by simp [he])]
      unfold listdir at ih ⊢
      rw [ih, List.filterMap_cons]
      obtain ⟨p1, c1⟩ := e
      simp only at he
      subst he
      rw [dirFileOf_eq_none ns p1 c1 h]
    · rw [List.filter_cons_of_pos (by simp [he])]
      unfold listdir at ih ⊢
      rw [List.filterMap_cons, List.filterMap_cons]
      cases hm : dirFileOf ns e with
      | none => exact ih
      | some b => rw [ih]

/-- Helper: renaming within another directory does not change this
directory listing. -/
theorem listdir_fsRename_other (t : Fs) (old new : List String) (ns : String)
    (h1 : old.head? ≠ some ns) (h2 : new.head? ≠ some ns) :
    listdir (fsRename t old new) ns = listdir t ns := by
  unfold fsRename
  cases hc : fsGet t old with
  | none => rfl
  | some c =>
    rw [listdir_fsInsert_other _ _ _ _ h2, listdir_fsErase_other _ _ _ h1]

/-- Helper: formatting a file of another namespace directory does not
change this directory listing. -/
theorem listdir_processFormatFile_other (parse : String → Option Json)
    (m f : String) (t : Fs) (ns : String) (h : m ≠ ns) :
    listdir (processFormatFile parse m f t).2 ns = listdir t ns := by
  unfold processFormatFile
  cases hc : formatConfig parse ((fsGet t [m, f]).getD .null) with
  | none => rfl
  | some c2 =>
    simp only []
    rw [listdir_fsRename_other _ _ _ _ (by simp [List.head?, h]) (by simp [List.head?, h]),
      listdir_fsInsert_other _ _ _ _ (by simp [List.head?, h])]

/-- Helper: the whole per-file loop of another namespace directory does
not change this directory listing. -/
theorem listdir_processFormatFiles_other (parse : String → Option Json)
    (m : String) (l : List String) (t : Fs) (ns : String) (h : m ≠ ns) :
    listdir (processFormatFiles parse m l t).2 ns = listdir t ns := by
  induction l generalizing t with
  | nil => rfl
  | cons f rest ih =>
    simp only [processFormatFiles]
    rw [ih, listdir_processFormatFile_other parse m f t ns h]

/-- Helper: formatting another namespace does not change this directory
listing. -/
theorem listdir_formatNamespaceDir_other (parse : String → Option Json)
    (m : String) (t : Fs) (ns : String) (h : m ≠ ns) :
    listdir (formatNamespaceDir parse m t).2 ns = listdir t ns := by
  unfold formatNamespaceDir
  by_cases hd : dirExists t m
  · rw [if_pos hd]
    exact listdir_processFormatFiles_other parse m _ t ns h
  · rw [if_neg hd]

/-- Helper: formatting one file touches only that file and its rename
target. -/
theorem processFormatFile_untouched (parse : String → Option Json) (ns g : String)
    (t : Fs) (q : List String)
    (h1 : q ≠ [ns, g]) (h2 : q ≠ [ns, "app_" ++ splitextStem g ++ ".json"]) :
    fsGet (processFormatFile parse ns g t).2 q = fsGet t q := by
  unfold processFormatFile
  cases hc : formatConfig parse ((fsGet t [ns, g]).getD .null) with
  | none => rfl
  | some c2 =>
    simp only []
    rw [fsGet_fsRename_ne _ _ _ _ h1 h2, fsGet_fsInsert_ne _ _ _ _ h1]

/-- Helper: the per-file loop touches only the listed files and their
rename targets. -/
theorem processFormatFiles_untouched (parse : String → Option Json) (ns : String)
    (l : List String) (t : Fs) (q : List String)
    (h : ∀ g ∈ l, q ≠ [ns, g] ∧ q ≠ [ns, "app_" ++ splitextStem g ++ ".json"]) :
    fsGet (processFormatFiles parse ns l t).2 q = fsGet t q := by
  induction l generalizing t with
  | nil => rfl
  | cons g rest ih =>
    simp only [processFormatFiles]
    rw [ih _ (fun x hx => h x (List.mem_cons_of_mem g hx))]
    exact processFormatFile_untouched parse ns g t q (h g (List.mem_cons_self g rest)).1
      (h g (List.mem_cons_self g rest)).2

/-- Helper: a file whose configuration does not decode is left exactly
as it was by the per-file loop: same path, same content. -/
theorem processFormatFiles_skip (parse : String → Option Json) (ns : String)
    (l : List String) (t : Fs) (f : String)
    (hnd : l.Nodup) (hf : f ∈ l)
    (hno : ∀ g1 ∈ l, ∀ g2 ∈ l, "app_" ++ splitextStem g1 ++ ".json" ≠ g2)
    (hbad : formatConfig parse ((fsGet t [ns, f]).getD .null) = none) :
    fsGet (processFormatFiles parse ns l t).2 [ns, f] = fsGet t [ns, f] := by
  induction l generalizing t with
  | nil => cases hf
  | cons g rest ih =>
    simp only [processFormatFiles]
    rcases List.mem_cons.mp hf with rfl | hfr
    · have ht1 : (processFormatFile parse ns f t).2 = t := by
        unfold processFormatFile
        rw [hbad]
      rw [ht1]
      apply processFormatFiles_untouched
      intro x hx
      refine ⟨?_, ?_⟩
      · intro he
        have hfx : f = x := by
          injection he with hh ht
          injection ht with hh2
        exact (List.nodup_cons.mp hnd).1 (hfx ▸ hx)
      · intro he
        have hfx : f = "app_" ++ splitextStem x ++ ".json" := by
          injection he with hh ht
          injection ht with hh2
        exact hno x (List.mem_cons_of_mem f hx) f hf hfx.symm
    · have hfg : f ≠ g := by
        intro hx
        exact (List.nodup_cons.mp hnd).1 (hx ▸ hfr)
      have hcontent : fsGet (processFormatFile parse ns g t).2 [ns, f] =
          fsGet t [ns, f] := by
        apply processFormatFile_untouched
        · intro he
          have : f = g := by
            injection he with hh ht
            injection ht with hh2
          exact hfg this
        · intro he
          have : f = "app_" ++ splitextStem g ++ ".json" := by
            injection he with hh ht
            injection ht with hh2
          exact hno g (List.mem_cons_self g rest) f hf this.symm
      rw [ih _ (List.nodup_cons.mp hnd).2 hfr
        (fun a ha b hb => hno a (List.mem_cons_of_mem g ha) b (List.mem_cons_of_mem g hb))
        (by rw [hcontent]; exact hbad)]
      exact hcontent

/-- Helper: a file whose configuration decodes ends up, after the
per-file loop, under its `app_<stem>.json` name with the formatted
content. -/
theorem processFormatFiles_format (parse : String → Option Json) (ns : String)
    (l : List String) (t : Fs) (g : String) (cg : Json)
    (hnd : l.Nodup) (hg : g ∈ l)
    (hno : ∀ g1 ∈ l, ∀ g2 ∈ l, "app_" ++ splitextStem g1 ++ ".json" ≠ g2)
    (hpair : ∀ g1 ∈ l, ∀ g2 ∈ l, g1 ≠ g2 →
      ("app_" ++ splitextStem g1 ++ ".json" : String) ≠ "app_" ++ splitextStem g2 ++ ".json")
    (hgood : formatConfig parse ((fsGet t [ns, g]).getD .null) = some cg) :
    fsGet (processFormatFiles parse ns l t).2
      [ns, "app_" ++ splitextStem g ++ ".json"] = some cg := by
  induction l generalizing t with
  | nil => cases hg
  | cons x rest ih =>
    simp only [processFormatFiles]
    rcases List.mem_cons.mp hg with rfl | hgr
    · have ht1 : fsGet (processFormatFile parse ns g t).2
          [ns, "app_" ++ splitextStem g ++ ".json"] = some cg := by
        unfold processFormatFile
        rw [hgood]
        simp only []
        exact fsGet_fsRename_new _ _ _ _ (fsGet_fsInsert_self t [ns, g] cg)
      rw [processFormatFiles_untouched parse ns rest _ _ ?_]
      · exact ht1
      · intro y hy
        refine ⟨?_, ?_⟩
        · intro he
          have : ("app_" ++ splitextStem g ++ ".json" : String) = y := by
            injection he with hh ht
            injection ht with hh2
          exact hno g hg y (List.mem_cons_of_mem g hy) this
        · intro he
          have heq : ("app_" ++ splitextStem g ++ ".json" : String) =
              "app_" ++ splitextStem y ++ ".json" := by
            injection he with hh ht
            injection ht with hh2
          have hgy : g ≠ y := by
            intro hx
            exact (List.nodup_cons.mp hnd).1 (hx ▸ hy)
          exact hpair g hg y (List.mem_cons_of_mem g hy) hgy heq
    · have hgx : g ≠ x := by
        intro hx
        exact (List.nodup_cons.mp hnd).1 (hx ▸ hgr)
      have hcontent : fsGet (processFormatFile parse ns x t).2 [ns, g] =
          fsGet t [ns, g] := by
        apply processFormatFile_untouched
        · intro he
          have : g = x := by
            injection he with hh ht
            injection ht with hh2
          exact hgx this
        · intro he
          have : g = "app_" ++ splitextStem x ++ ".json" := by
            injection he with hh ht
            injection ht with hh2
          exact hno x (List.mem_cons_self x rest) g hg this.symm
      exact ih _ (List.nodup_cons.mp hnd).2 hgr
        (fun a ha b hb => hno a (List.mem_cons_of_mem x ha) b (List.mem_cons_of_mem x hb))
        (fun a ha b hb => hpair a (List.mem_cons_of_mem x ha) b (List.mem_cons_of_mem x hb))
        (by rw [hcontent]; exact hgood)

/-- Helper: a formatted app file name never coincides with a staged
draft file name. -/
theorem app3_ne_draft3 (y x : String) :
    ("app_" ++ y ++ ".json" : String) ≠ "draft_" ++ x ++ ".json" := by
  intro h
  have h2 : ("app_" ++ y ++ ".json").data = ("draft_" ++ x ++ ".json").data :=
    congrArg String.data h
  have h3 : ("app_" ++ y ++ ".json").data = ("app_".data ++ y.data) ++ ".json".data := rfl
  have h4 : ("draft_" ++ x ++ ".json").data = ("draft_".data ++ x.data) ++ ".json".data := rfl
  rw [h3, h4] at h2
  simp at h2

/-- Helper: a formatted app file name never coincides with a staged
connection file name. -/
theorem app3_ne_conn3 (y x : String) :
    ("app_" ++ y ++ ".json" : String) ≠ "conn_" ++ x ++ ".json" := by
  intro h
  have h2 : ("app_" ++ y ++ ".json").data = ("conn_" ++ x ++ ".json").data :=
    congrArg String.data h
  have h3 : ("app_" ++ y ++ ".json").data = ("app_".data ++ y.data) ++ ".json".data := rfl
  have h4 : ("conn_" ++ x ++ ".json").data = ("conn_".data ++ x.data) ++ ".json".data := rfl
  rw [h3, h4] at h2
  simp at h2

/-- Helper: formatting a namespace directory touches no path outside
that directory. -/
theorem formatNamespaceDir_other (parse : String → Option Json) (m : String)
    (t : Fs) (q : List String) (h : q.head? ≠ some m) :
    fsGet (formatNamespaceDir parse m t).2 q = fsGet t q := by
  unfold formatNamespaceDir
  by_cases hd : dirExists t m
  · rw [if_pos hd]
    apply processFormatFiles_untouched
    intro g hg
    refine ⟨?_, ?_⟩
    · intro he
      apply h
      rw [he]
      rfl
    · intro he
      apply h
      rw [he]
      rfl
  · rw [if_neg hd]

/-- Helper: the formatting pass touches no path outside the listed
namespace directories. -/
theorem format_deployed_apps_other (parse : String → Option Json)
    (ms : List NamespaceMeta) (t : Fs) (q : List String)
    (h : ∀ m ∈ ms, q.head? ≠ some m.name) :
    fsGet (format_deployed_apps parse ms t).2 q = fsGet t q := by
  induction ms generalizing t with
  | nil => rfl
  | cons m rest ih =>
    simp only [format_deployed_apps]
    rw [ih _ (fun x hx => h x (List.mem_cons_of_mem m hx)),
      formatNamespaceDir_other parse m.name t q (h m (List.mem_cons_self m rest))]

/-- Helper: under collision-free file names, the formatting pass leaves
a file with an undecodable configuration untouched at its original path
with its original content. -/
theorem format_deployed_apps_spec_skip (parse : String → Option Json)
    (ms : List NamespaceMeta) (t : Fs) (ns f : String)
    (hns : ns ∈ ms.map NamespaceMeta.name)
    (hnames : (ms.map NamespaceMeta.name).Nodup)
    (hnd : (listdir t ns).Nodup) (hf : f ∈ listdir t ns)
    (hno : ∀ g1 ∈ listdir t ns, ∀ g2 ∈ listdir t ns,
      ("app_" ++ splitextStem g1 ++ ".json" : String) ≠ g2)
    (hbad : formatConfig parse ((fsGet t [ns, f]).getD .null) = none) :
    fsGet (format_deployed_apps parse ms t).2 [ns, f] = fsGet t [ns, f] := by
  induction ms generalizing t with
  | nil => simp at hns
  | cons m rest ih =>
    simp only [format_deployed_apps]
    by_cases hm : m.name = ns
    · have h1 : fsGet (formatNamespaceDir parse m.name t).2 [ns, f] = fsGet t [ns, f] := by
        rw [hm]
        unfold formatNamespaceDir
        rw [if_pos (dirExists_of_mem_listdir t ns f hf)]
        exact processFormatFiles_skip parse ns _ t f hnd hf hno hbad
      have hrest : ∀ m2 ∈ rest, ([ns, f] : List String).head? ≠ some m2.name := by
        intro m2 hm2 hx
        have hx2 : ns = m2.name := by
          simpa [List.head?] using hx
        have hmem : m.name ∈ rest.map NamespaceMeta.name := by
          rw [hm, hx2]
          exact List.mem_map_of_mem _ hm2
        exact (List.nodup_cons.mp (by simpa using hnames)).1 hmem
      rw [format_deployed_apps_other parse rest _ _ hrest, h1]
    · have h1 : fsGet (formatNamespaceDir parse m.name t).2 [ns, f] = fsGet t [ns, f] :=
        formatNamespaceDir_other parse m.name t [ns, f]
          (by simp [List.head?]; exact fun hx => hm hx.symm)
      have hld : listdir (formatNamespaceDir parse m.name t).2 ns = listdir t ns :=
        listdir_formatNamespaceDir_other parse m.name t ns hm
      have hns2 : ns ∈ rest.map NamespaceMeta.name := by
        rcases List.mem_map.mp hns with ⟨a, ha, hax⟩
        rcases List.mem_cons.mp ha with rfl | ha2
        · exact absurd hax hm
        · exact List.mem_map.mpr ⟨a, ha2, hax⟩
      rw [ih _ hns2 (by simpa using (List.nodup_cons.mp (by simpa using hnames)).2)
        (by rw [hld]; exact hnd) (by rw [hld]; exact hf)
        (by rw [hld]; exact hno) (by rw [h1]; exact hbad)]
      exact h1

/-- Helper: under collision-free file names, the formatting pass leaves
a file with a decodable configuration under its `app_<stem>.json` name
with the formatted content. -/
theorem format_deployed_apps_spec_format (parse : String → Option Json)
    (ms : List NamespaceMeta) (t : Fs) (ns g : String) (cg : Json)
    (hns : ns ∈ ms.map NamespaceMeta.name)
    (hnames : (ms.map NamespaceMeta.name).Nodup)
    (hnd : (listdir t ns).Nodup) (hg : g ∈ listdir t ns)
    (hno : ∀ g1 ∈ listdir t ns, ∀ g2 ∈ listdir t ns,
      ("app_" ++ splitextStem g1 ++ ".json" : String) ≠ g2)
    (hpair : ∀ g1 ∈ listdir t ns, ∀ g2 ∈ listdir t ns, g1 ≠ g2 →
      ("app_" ++ splitextStem g1 ++ ".json" : String) ≠ "app_" ++ splitextStem g2 ++ ".json")
    (hgood : formatConfig parse ((fsGet t [ns, g]).getD .null) = some cg) :
    fsGet (format_deployed_apps parse ms t).2
      [ns, "app_" ++ splitextStem g ++ ".json"] = some cg := by
  induction ms generalizing t with
  | nil => simp at hns
  | cons m rest ih =>
    simp only [format_deployed_apps]
    by_cases hm : m.name = ns
    · have h1 : fsGet (formatNamespaceDir parse m.name t).2
          [ns, "app_" ++ splitextStem g ++ ".json"] = some cg := by
        rw [hm]
        unfold formatNamespaceDir
        rw [if_pos (dirExists_of_mem_listdir t ns g hg)]
        exact processFormatFiles_format parse ns _ t g cg hnd hg hno hpair hgood
      have hrest : ∀ m2 ∈ rest,
          ([ns, "app_" ++ splitextStem g ++ ".json"] : List String).head? ≠ some m2.name := by
        intro m2 hm2 hx
        have hx2 : ns = m2.name := by
          simpa [List.head?] using hx
        have hmem : m.name ∈ rest.map NamespaceMeta.name := by
          rw [hm, hx2]
          exact List.mem_map_of_mem _ hm2
        exact (List.nodup_cons.mp (by simpa using hnames)).1 hmem
      rw [format_deployed_apps_other parse rest _ _ hrest, h1]
    · have h1 : fsGet (formatNamespaceDir parse m.name t).2
          [ns, "app_" ++ splitextStem g ++ ".json"] =
          fsGet t [ns, "app_" ++ splitextStem g ++ ".json"] :=
        formatNamespaceDir_other parse m.name t _
          (by simp [List.head?]; exact fun hx => hm hx.symm)
      have hld : listdir (formatNamespaceDir parse m.name t).2 ns = listdir t ns :=
        listdir_formatNamespaceDir_other parse m.name t ns hm
      have hcontent : fsGet (formatNamespaceDir parse m.name t).2 [ns, g] =
          fsGet t [ns, g] :=
        formatNamespaceDir_other parse m.name t _
          (by simp [List.head?]; exact fun hx => hm hx.symm)
      have hns2 : ns ∈ rest.map NamespaceMeta.name := by
        rcases List.mem_map.mp hns with ⟨a, ha, hax⟩
        rcases List.mem_cons.mp ha with rfl | ha2
        · exact absurd hax hm
        · exact List.mem_map.mpr ⟨a, ha2, hax⟩
      exact ih _ hns2 (by simpa using (List.nodup_cons.mp (by simpa using hnames)).2)
        (by rw [hld]; exact hnd) (by rw [hld]; exact hg)
        (by rw [hld]; exact hno) (by rw [hld]; exact hpair)
        (by rw [hcontent]; exact hgood)

/-- Helper: a fold of writes to other paths preserves a lookup. -/
theorem fsGet_foldl_insert_ne (ws : List (List String × Json)) (t : Fs)
    (q : List String) (h : ∀ w ∈ ws, q ≠ w.1) :
    fsGet (ws.foldl (fun acc w => fsInsert acc w.1 w.2) t) q = fsGet t q := by
  induction ws generalizing t with
  | nil => rfl
  | cons w rest ih =>
    rw [List.foldl_cons, ih _ (fun x hx => h x (List.mem_cons_of_mem w hx)),
      fsGet_fsInsert_ne _ _ _ _ (h w (List.mem_cons_self w rest))]

/-- Helper: the staging tree produced by the per-namespace backup body
keeps every formatted app entry: the body writes only draft and
connection files. -/
theorem backupNamespace_preserves_app (env : BackupEnv) (n : NamespaceMeta)
    (t : Fs) (ns y : String) :
    fsGet (backupNamespace env n t).2 [ns, "app_" ++ y ++ ".json"] =
      fsGet t [ns, "app_" ++ y ++ ".json"] := by
  have hsnd : (backupNamespace env n t).2 =
      (((env.pipelinesList n.name).map (fun d =>
          ([n.name, "draft_" ++ d.name ++ ".json"],
            optJson (env.fetchPipeline n.name d.id)))) ++
        ((env.connections n.name).map (fun c =>
          ([n.name, "conn_" ++ c.name ++ ".json"], c.toJson)))).foldl
        (fun acc w => fsInsert acc w.1 w.2) t := rfl
  rw [hsnd]
  apply fsGet_foldl_insert_ne
  intro w hw
  rcases List.mem_append.mp hw with h1 | h2
  · rcases List.mem_map.mp h1 with ⟨d, hd, rfl⟩
    intro he
    have : ("app_" ++ y ++ ".json" : String) = "draft_" ++ d.name ++ ".json" := by
      injection he with hh ht
      injection ht with hh2
    exact app3_ne_draft3 y d.name this
  · rcases List.mem_map.mp h2 with ⟨c, hc, rfl⟩
    intro he
    have : ("app_" ++ y ++ ".json" : String) = "conn_" ++ c.name ++ ".json" := by
      injection he with hh ht
      injection ht with hh2
    exact app3_ne_conn3 y c.name this

/-- Helper: the whole backup fetch loop keeps every formatted app
entry. -/
theorem backupNamespaces_preserves_app (env : BackupEnv) (l : List NamespaceMeta)
    (t : Fs) (ns y : String) :
    fsGet (backupNamespaces env l t).2 [ns, "app_" ++ y ++ ".json"] =
      fsGet t [ns, "app_" ++ y ++ ".json"] := by
  induction l generalizing t with
  | nil => rfl
  | cons n rest ih =>
    simp only [backupNamespaces]
    rw [ih, backupNamespace_preserves_app]

/-- Helper: on the successful path the final staging tree is the fetch
loop applied to the formatted export plus `namespaces.json`. -/
theorem stagingTree_eq (env : BackupEnv) (hs : env.exportStatus = 200)
    (hne : env.namespaces ≠ []) :
    stagingTree env =
      (backupNamespaces env env.namespaces
        (fsInsert (format_deployed_apps env.parse env.namespaces
            (exportFs env.exportFiles)).2 ["namespaces.json"]
          (Json.arr (env.namespaces.map NamespaceMeta.toJson)))).2 := by
  have hemp : env.namespaces.isEmpty = false := by
    cases h : env.namespaces with
    | nil => exact absurd h hne
    | cons a l => rfl
  unfold stagingTree backup_application_state fetch_applications
  simp [hs, hemp]

/-- C8: a deployed-app export file whose configuration string does not
decode is left by the formatting step exactly where it was — same name,
same content — while a file of the same namespace whose configuration
decodes is rewritten with the decoded object, renamed to
`app_<stem>.json`, and survives under that name into the final staging
tree that gets archived.  The collision-freedom hypotheses say the
export's file names are distinct and no rename target collides with
another file. -/
theorem c8_invalid_configuration_skips_only_that_file (env : BackupEnv)
    (ns f g : String) (cg : Json)
    (hs : env.exportStatus = 200)
    (hnames : (env.namespaces.map NamespaceMeta.name).Nodup)
    (hns : ns ∈ env.namespaces.map NamespaceMeta.name)
    (hnd : (listdir (exportFs env.exportFiles) ns).Nodup)
    (hno : ∀ g1 ∈ listdir (exportFs env.exportFiles) ns,
      ∀ g2 ∈ listdir (exportFs env.exportFiles) ns,
      ("app_" ++ splitextStem g1 ++ ".json" : String) ≠ g2)
    (hpair : ∀ g1 ∈ listdir (exportFs env.exportFiles) ns,
      ∀ g2 ∈ listdir (exportFs env.exportFiles) ns, g1 ≠ g2 →
      ("app_" ++ splitextStem g1 ++ ".json" : String) ≠
        "app_" ++ splitextStem g2 ++ ".json")
    (hf : f ∈ listdir (exportFs env.exportFiles) ns)
    (hbad : formatConfig env.parse
      ((fsGet (exportFs env.exportFiles) [ns, f]).getD .null) = none)
    (hg : g ∈ listdir (exportFs env.exportFiles) ns)
    (hgood : formatConfig env.parse
      ((fsGet (exportFs env.exportFiles) [ns, g]).getD .null) = some cg) :
    fsGet (format_deployed_apps env.parse env.namespaces
        (exportFs env.exportFiles)).2 [ns, f] =
      fsGet (exportFs env.exportFiles) [ns, f] ∧
    fsGet (stagingTree env) [ns, "app_" ++ splitextStem g ++ ".json"] = some cg := by
  have hne : env.namespaces ≠ [] := by
    intro hx
    rw [hx] at hns
    simp at hns
  refine ⟨format_deployed_apps_spec_skip env.parse env.namespaces _ ns f
    hns hnames hnd hf hno hbad, ?_⟩
  rw [stagingTree_eq env hs hne, backupNamespaces_preserves_app,
    fsGet_fsInsert_ne _ _ _ _ (by simp)]
  exact format_deployed_apps_spec_format env.parse env.namespaces _ ns g cg
    hns hnames hnd hg hno hpair hgood

/-- C8 witness: in a concrete export with `good.json` (decodable
configuration) and `bad.json` (undecodable), the formatting pass leaves
`bad.json` untouched while `good.json` ends up as `app_good.json`, with
the decoded configuration object, in the final staging tree. -/
theorem c8_witness :
    c8BackupEnv.exportStatus = 200 ∧
    (c8BackupEnv.namespaces.map NamespaceMeta.name).Nodup ∧
    "ns1" ∈ c8BackupEnv.namespaces.map NamespaceMeta.name ∧
    (listdir (exportFs c8BackupEnv.exportFiles) "ns1").Nodup ∧
    "bad.json" ∈ listdir (exportFs c8BackupEnv.exportFiles) "ns1" ∧
    formatConfig c8BackupEnv.parse
      ((fsGet (exportFs c8BackupEnv.exportFiles) ["ns1", "bad.json"]).getD .null) = none ∧
    "good.json" ∈ listdir (exportFs c8BackupEnv.exportFiles) "ns1" ∧
    formatConfig c8BackupEnv.parse
      ((fsGet (exportFs c8BackupEnv.exportFiles) ["ns1", "good.json"]).getD .null) =
      some (.obj [("name", .str "g"), ("configuration", .obj [("stages", .arr [])])]) ∧
    (fsGet (format_deployed_apps c8BackupEnv.parse c8BackupEnv.namespaces
        (exportFs c8BackupEnv.exportFiles)).2 ["ns1", "bad.json"] =
      fsGet (exportFs c8BackupEnv.exportFiles) ["ns1", "bad.json"] ∧
     fsGet (stagingTree c8BackupEnv) ["ns1", "app_" ++ splitextStem "good.json" ++ ".json"] =
      some (.obj [("name", .str "g"), ("configuration", .obj [("stages", .arr [])])])) :=
  ⟨rfl, by decide, by decide, by decide, by decide, rfl, by decide, rfl,
   c8_invalid_configuration_skips_only_that_file c8BackupEnv "ns1" "bad.json" "good.json"
     (.obj [("name", .str "g"), ("configuration", .obj [("stages", .arr [])])])
     rfl (by decide) (by decide) (by decide) (by decide) (by decide)
     (by decide) rfl (by decide) rfl⟩

end Claims